import Mathlib

/-!
# Verification of the neovim-server Remote UI Session Bridge

Shallow embedding, translated from the repository sources:

* `src/server/server.go` — client session lifecycle, message dispatch,
  outbound message guard (`sendToClient`), Neovim command handling.
* `src/unnamed/part_001` — a revision of `server.go` that additionally
  carries the clipboard bridge (`setupClipboard`, the `clipboard_content`
  client-message case); modelled in namespace `Clip`.
* `src/server/static/renderer.js` — grid state and the UI event decoder
  (`handleGridLine`, `handleGridScroll`, `isDoubleWidth`, `rgbToHex`).

Conventions of the embedding:

* Go / JS strings are Lean `String`s; JS numbers that carry grid indices,
  sizes or colour values are `Int` (they may be negative in the protocol).
* Fallible external calls (dialing, RPC requests) are represented by the
  outcome the environment delivers for that call, carried in the message
  that triggers it (`Option String` = optional error text).
* Writes to the websocket are collected in a trace (`List OutMsg`); writes
  are assumed to succeed (the `WriteJSON`-error branch of `sendToClient`
  is transport failure outside the modelled claims).
* Remote RPC invocations are collected in a trace (`List RpcCall`).
-/

/-! ## String helpers (Go `strings.Contains`, `strings.CutPrefix`) -/

/-- Boolean prefix test on character lists. -/
def listPrefixOf : List Char → List Char → Bool
  | [], _ => true
  | _ :: _, [] => false
  | a :: as, b :: bs => a == b && listPrefixOf as bs

/-- Does `pat` occur as a contiguous substring of `s`? -/
def hasSubstrAux (pat : List Char) : List Char → Bool
  | [] => listPrefixOf pat []
  | c :: rest => listPrefixOf pat (c :: rest) || hasSubstrAux pat rest

/-- Go `strings.Contains s pat`. -/
def hasSubstr (s pat : String) : Bool :=
  hasSubstrAux pat.data s.data

/-- Go `strings.CutPrefix s pre`: `some` of the remainder when `pre` is a
prefix of `s`, else `none`. -/
def cutPrefixStr (s pre : String) : Option String :=
  if listPrefixOf pre.data s.data then some (s.drop pre.length) else none

/-! ## Server data model (`src/server/server.go`) -/

/-- `ClientSession` from server.go.  The `*nvim.Nvim` handle is modelled by
its presence (`nvim : Bool`); the websocket handle is implicit (writes go
to the trace). -/
structure ClientSession where
  nvim : Bool
  address : String
  active : Bool
  uiAttached : Bool
deriving Repr, DecidableEq

/-- One JSON message written to the client websocket
(`map[string]any{"type": …, "data": …}`); `data := none` models a message
with no data field (`clipboard_get`). -/
structure OutMsg where
  type : String
  data : Option String
deriving Repr, DecidableEq

/-- One invocation of the consumed RPC capability (`session.nvim.…`). -/
inductive RpcCall where
  | dial (address : String)
  | close
  | attachUI (width height : Int)
  | input (data : String)
  | command (cmd : String)
  | execLua (code : String)
  | tryResizeUI (width height : Int)
  | setVar (name : String) (value : String)
deriving Repr, DecidableEq

/-- One decoded client → bridge JSON message, paired with the outcome the
environment delivers for the single RPC call the message may trigger
(`none` = the call succeeds, `some err` = it fails with error text `err`).
`connect none _` models a `connect` whose `address` field is not a string. -/
inductive ClientMsg where
  | connect (address : Option String) (dialErr : Option String)
  | attachUi (width height : Int) (callErr : Option String)
  | input (data : String) (callErr : Option String)
  | command (data : String) (callErr : Option String)
  | resize (width height : Int) (callErr : Option String)
  | mouse (action : String) (button row col : Int) (callErr : Option String)
  | scroll (direction : String) (row col : Int) (callErr : Option String)
  | clipboardContent (data : String) (callErr : Option String)
  | other (msgType : String)
deriving Repr, DecidableEq

/-- Is this a `connect` message (the only type handled while inactive)? -/
def ClientMsg.isConnect : ClientMsg → Bool
  | .connect _ _ => true
  | _ => false

/-- The `session_closed` notice, as built at each closure site in server.go. -/
def msgSessionClosed : OutMsg :=
  ⟨"session_closed", some "Neovim session has been closed"⟩

/-- server.go `sendToClient`: drops the message when the session is not
active, except for `session_closed`; otherwise writes it. -/
def sendToClient (session : ClientSession) (message : OutMsg) : List OutMsg :=
  if !session.active && message.type != "session_closed" then []
  else [message]

/-- server.go `handleNeovimCommand`: dispatch of editor commands for an
(allegedly) active session.  Returns the updated session, the websocket
writes and the RPC calls made. -/
def handleNeovimCommand (session : ClientSession) (msg : ClientMsg) :
    ClientSession × List OutMsg × List RpcCall :=
  if !session.active || !session.nvim then
    (session, sendToClient session ⟨"error", some "Neovim session is no longer active"⟩, [])
  else
    match msg with
    | .attachUi width height callErr =>
      match callErr with
      | some err =>
        let s1 := { session with uiAttached := false }
        if hasSubstr err "session closed" then
          let s2 := { s1 with active := false }
          (s2, sendToClient s2 msgSessionClosed, [.attachUI width height])
        else
          (s1, [], [.attachUI width height])
      | none => ({ session with uiAttached := true }, [], [.attachUI width height])
    | .input data callErr =>
      match callErr with
      | some err =>
        if hasSubstr err "session closed" then
          let s2 := { session with active := false }
          (s2, sendToClient s2 msgSessionClosed, [.input data])
        else
          (session, [], [.input data])
      | none => (session, [], [.input data])
    | .command cmd _ =>
      if hasSubstr cmd "nvim_ui_attach" then
        (session, [], [.attachUI 80 24])
      else
        match cutPrefixStr cmd "lua " with
        | some luaCode => (session, [], [.execLua luaCode])
        | none => (session, [], [.command cmd])
    | .resize width height callErr =>
      if !session.uiAttached then
        (session, [], [])
      else
        match callErr with
        | some err =>
          if hasSubstr err "UI not attached" then
            ({ session with uiAttached := false }, [], [.tryResizeUI width height])
          else if hasSubstr err "session closed" then
            let s2 := { session with active := false, uiAttached := false }
            (s2, sendToClient s2 msgSessionClosed, [.tryResizeUI width height])
          else
            (session, [], [.tryResizeUI width height])
        | none => (session, [], [.tryResizeUI width height])
    | .mouse action button row col _ =>
      let inputStr : String :=
        if button = 0 then
          if action = "press" then "<LeftMouse><" ++ toString col ++ "," ++ toString row ++ ">"
          else if action = "drag" then "<LeftDrag><" ++ toString col ++ "," ++ toString row ++ ">"
          else "<LeftRelease><" ++ toString col ++ "," ++ toString row ++ ">"
        else if button = 2 then
          if action = "press" then "<RightMouse><" ++ toString col ++ "," ++ toString row ++ ">"
          else if action = "drag" then "<RightDrag><" ++ toString col ++ "," ++ toString row ++ ">"
          else "<RightRelease><" ++ toString col ++ "," ++ toString row ++ ">"
        else ""
      if inputStr ≠ "" then (session, [], [.input inputStr])
      else (session, [], [])
    | .scroll direction row col _ =>
      let inputStr : String :=
        if direction = "up" then "<ScrollWheelUp><" ++ toString col ++ "," ++ toString row ++ ">"
        else "<ScrollWheelDown><" ++ toString col ++ "," ++ toString row ++ ">"
      (session, [], [.input inputStr])
    | _ => (session, [], [])

/-- server.go `connectSessionToNeovim` inlined into the `connect` case of
`handleClientMessage`, plus the other cases.  In server.go every message
type other than `connect` (including `clipboard_content`, which only the
part_001 revision handles) falls into the `default` branch. -/
def handleClientMessage (session : ClientSession) (msg : ClientMsg) :
    ClientSession × List OutMsg × List RpcCall :=
  match msg with
  | .connect addressOpt dialErr =>
    match addressOpt with
    | none => (session, sendToClient session ⟨"error", some "Invalid server address"⟩, [])
    | some address =>
      -- connectSessionToNeovim: close and discard any prior connection first
      let closeCalls : List RpcCall := if session.nvim then [.close] else []
      let s0 := { session with nvim := false }
      match dialErr with
      | some e =>
        let dialMsg := "failed to dial " ++ address ++ ": " ++ e
        (s0,
         sendToClient s0 ⟨"error", some ("Failed to connect to Neovim: " ++ dialMsg)⟩,
         closeCalls ++ [.dial address])
      | none =>
        let s1 := { s0 with nvim := true, address := address, active := true }
        (s1,
         sendToClient s1 ⟨"connected", some "Successfully connected to Neovim"⟩,
         closeCalls ++ [.dial address])
  | _ =>
    if !session.active || !session.nvim then
      (session, sendToClient session ⟨"error", some "Not connected to Neovim"⟩, [])
    else
      handleNeovimCommand session msg

/-- Sequential processing of a list of client messages
(the websocket read loop of `handleWebSocket`). -/
def handleMessages (session : ClientSession) :
    List ClientMsg → ClientSession × List OutMsg × List RpcCall
  | [] => (session, [], [])
  | m :: rest =>
    let r1 := handleClientMessage session m
    let r2 := handleMessages r1.1 rest
    (r2.1, r1.2.1 ++ r2.2.1, r1.2.2 ++ r2.2.2)

/-- The tail of server.go `listenToNeovimEvents` after `session.nvim.Serve()`
returns: deactivate the session, reset the UI flag and send the
`session_closed` notice (which `sendToClient` lets through unconditionally). -/
def serveLoopReturn (session : ClientSession) : ClientSession × List OutMsg :=
  let s := { session with active := false, uiAttached := false }
  (s, sendToClient s msgSessionClosed)

/-- The session freshly created by server.go `handleWebSocket`
(`&ClientSession{conn: conn, active: false}`; Go zero values elsewhere). -/
def newSession : ClientSession :=
  { nvim := false, address := "", active := false, uiAttached := false }

/-- The `ready` message that `handleWebSocket` writes with `conn.WriteJSON`
directly, bypassing `sendToClient` (string as in the source). -/
def readyMessage : OutMsg :=
  ⟨"ready", some "WebSocket connected. Please provide Neovim server addresctx."⟩

/-- The start of `handleWebSocket`: the fresh (inactive) session and the
writes performed before the read loop. -/
def handleWebSocketInit : ClientSession × List OutMsg :=
  (newSession, [readyMessage])

/-- Number of `session_closed` messages in a write trace. -/
def countSessionClosed (msgs : List OutMsg) : Nat :=
  (msgs.filter (fun m => m.type == "session_closed")).length

/-! ## Clipboard bridge (`src/unnamed/part_001`) -/

namespace Clip

/-- part_001 `setupClipboard`, `RegisterHandler("clipboard_copy", …)`:
forward the copied content to the client as a `clipboard_set` message. -/
def clipboardCopyHandler (session : ClientSession) (content : String) : List OutMsg :=
  sendToClient session ⟨"clipboard_set", some content⟩

/-- part_001 `setupClipboard`, `RegisterHandler("clipboard_paste", …)`:
ask the client for its clipboard with a `clipboard_get` message. -/
def clipboardPasteHandler (session : ClientSession) : List OutMsg :=
  sendToClient session ⟨"clipboard_get", none⟩

/-- part_001 `handleClientMessage`, case `"clipboard_content"`: set the
shared remote variable; no websocket reply.  Returns the RPC calls made. -/
def handleClipboardContent (session : ClientSession) (data : String) : List RpcCall :=
  if !session.active || !session.nvim then []
  else [.setVar "nvim_server_clipboard" data]

end Clip

/-! ## Hex formatting (JS `Number.prototype.toString(16)`, `padStart`) -/

/-- Digit character of a hex digit value (lowercase, as JS `toString(16)`). -/
def hexDigit (n : Nat) : Char :=
  "0123456789abcdef".data.getD n '0'

/-- Fuel-driven hex digit expansion (most significant first). -/
def toHexDigitsAux : Nat → Nat → List Char
  | 0, _ => []
  | fuel + 1, n =>
    if n < 16 then [hexDigit n]
    else toHexDigitsAux fuel (n / 16) ++ [hexDigit (n % 16)]

/-- Hex digits of `n`, most significant first (`n.toString(16)` for a
non-negative integer; `n + 1` fuel always suffices). -/
def toHexDigits (n : Nat) : List Char :=
  toHexDigitsAux (n + 1) n

/-- JS `value.toString(16)` on an integer. -/
def jsToString16 (i : Int) : String :=
  if i < 0 then "-" ++ ⟨toHexDigits i.natAbs⟩ else ⟨toHexDigits i.toNat⟩

/-- JS `s.padStart(6, "0")`. -/
def padStart6 (s : String) : String :=
  if 6 ≤ s.length then s else ⟨List.replicate (6 - s.length) '0'⟩ ++ s

/-- Numeric value of a hex digit character (spec-side decoder). -/
def hexDigitVal (c : Char) : Nat :=
  let k := c.toNat
  if 48 ≤ k ∧ k ≤ 57 then k - 48
  else if 97 ≤ k ∧ k ≤ 102 then k - 87
  else 0

/-- Numeric value encoded by a hex digit string (spec-side decoder). -/
def hexStrVal (s : String) : Nat :=
  s.data.foldl (fun a c => 16 * a + hexDigitVal c) 0

/-! ## Renderer data model (`src/server/static/renderer.js`) -/

/-- One grid cell as written by renderer.js (`{char, fg, bg, isDoubleWidth}`);
`none` for a colour models JS `null` ("inherit default").  Cells created by
`initGrid` and the scroll blanking carry no `isDoubleWidth` field
(JS `undefined`, falsy), modelled as `false`. -/
structure Cell where
  char : String
  fg : Option String
  bg : Option String
  isDoubleWidth : Bool
deriving Repr, DecidableEq

/-- One entry of `this.highlights` as stored by `handleHlAttrDefine`. -/
structure Highlight where
  fg : Option String
  bg : Option String
  bold : Bool
  italic : Bool
  underline : Bool
  reverse : Bool
deriving Repr, DecidableEq

/-- The renderer fields the decoder claims depend on: `this.rows`,
`this.cols`, `this.grid`, `this.colors.fg` / `this.colors.bg` and
`this.highlights` (an association list models the JS `Map`). -/
structure Renderer where
  rows : Int
  cols : Int
  grid : List (List Cell)
  colorsFg : Option String
  colorsBg : Option String
  highlights : List (Int × Highlight)
deriving Repr, DecidableEq

/-- JS `this.highlights.get(id)`. -/
def hlGet (hls : List (Int × Highlight)) (id : Int) : Option Highlight :=
  match hls.find? (fun p => p.1 == id) with
  | some p => some p.2
  | none => none

/-- Read cell `(r, c)`; `none` when the index misses the matrix
(JS `undefined`). -/
def getCell (g : List (List Cell)) (r c : Int) : Option Cell :=
  if 0 ≤ r ∧ 0 ≤ c then
    match g[r.toNat]? with
    | some rowL => rowL[c.toNat]?
    | none => none
  else none

/-- Write cell `(r, c)`.  A JS assignment at a negative or out-of-range
index never changes an element of the matrix proper, so the model leaves
the grid unchanged there (`List.set` is the identity out of range). -/
def setCell (g : List (List Cell)) (r c : Int) (cell : Cell) : List (List Cell) :=
  if 0 ≤ r ∧ 0 ≤ c then
    match g[r.toNat]? with
    | some rowL => g.set r.toNat (rowL.set c.toNat cell)
    | none => g
  else g

/-- A blank cell built from the current default colours
(`{char: " ", fg: this.colors.fg, bg: this.colors.bg}`). -/
def blankCell (R : Renderer) : Cell :=
  { char := " ", fg := R.colorsFg, bg := R.colorsBg, isDoubleWidth := false }

/-- renderer.js `rgbToHex`: `null`/`-1` mean "inherit default" (`none`);
any other negative value is shifted by `0xffffff + rgb + 1`; the result is
formatted as at least six lowercase hex digits after `#`. -/
def rgbToHex (rgb : Option Int) : Option String :=
  match rgb with
  | none => none
  | some v =>
    if v = -1 then none
    else
      let value : Int := if v < 0 then 0xffffff + v + 1 else v
      some ("#" ++ padStart6 (jsToString16 value))

/-- renderer.js `isDoubleWidth`: wide-glyph test on the first code point. -/
def isDoubleWidth (charStr : String) : Bool :=
  match charStr.data with
  | [] => false
  | c :: _ =>
    let code := c.toNat
    if code == 0 then false
    else
      (0x4e00 ≤ code && code ≤ 0x9fff) ||   -- CJK Unified Ideographs
      (0x3400 ≤ code && code ≤ 0x4dbf) ||   -- CJK Extension A
      (0x20000 ≤ code && code ≤ 0x2a6df) || -- CJK Extension B
      (0xac00 ≤ code && code ≤ 0xd7af) ||   -- Hangul Syllables
      (0x3040 ≤ code && code ≤ 0x309f) ||   -- Hiragana
      (0x30a0 ≤ code && code ≤ 0x30ff) ||   -- Katakana
      (0x1f600 ≤ code && code ≤ 0x1f64f) || -- Emoticons
      (0x1f300 ≤ code && code ≤ 0x1f5ff) || -- Misc Symbols
      (0x1f680 ≤ code && code ≤ 0x1f6ff) || -- Transport
      (0x1f1e0 ≤ code && code ≤ 0x1f1ff) || -- Flags
      (0x2600 ≤ code && code ≤ 0x26ff) ||   -- Misc symbols
      (0x2700 ≤ code && code ≤ 0x27bf) ||   -- Dingbats
      (0x1f900 ≤ code && code ≤ 0x1f9ff) || -- Supplemental Symbols
      (0x1fa70 ≤ code && code ≤ 0x1faff) || -- Extended-A
      (0x2e80 ≤ code && code ≤ 0x2eff) ||   -- CJK Radicals
      (0x2f00 ≤ code && code ≤ 0x2fdf) ||   -- Kangxi Radicals
      (0x3000 ≤ code && code ≤ 0x303f) ||   -- CJK Symbols
      (0xff00 ≤ code && code ≤ 0xffef) ||   -- Halfwidth/Fullwidth Forms
      (0x23fb ≤ code && code ≤ 0x23fe) ||   -- IEC Power Symbols
      code == 0x2665 ||                     -- Octicons (heart)
      code == 0x26a1 ||                     -- Octicons (lightning)
      code == 0x2b58 ||                     -- IEC Power Symbols
      (0xe000 ≤ code && code ≤ 0xe00a) ||   -- Pomicons
      (0xe0a0 ≤ code && code ≤ 0xe0a2) ||   -- Powerline
      code == 0xe0a3 ||                     -- Powerline Extra
      (0xe0b0 ≤ code && code ≤ 0xe0b3) ||   -- Powerline
      (0xe0b4 ≤ code && code ≤ 0xe0c8) ||   -- Powerline Extra
      code == 0xe0ca ||                     -- Powerline Extra
      (0xe0cc ≤ code && code ≤ 0xe0d7) ||   -- Powerline Extra
      (0xe200 ≤ code && code ≤ 0xe2a9) ||   -- Font Awesome Extension
      (0xe300 ≤ code && code ≤ 0xe3e3) ||   -- Weather Icons
      (0xe5fa ≤ code && code ≤ 0xe6b7) ||   -- Seti-UI + Custom
      (0xe700 ≤ code && code ≤ 0xe8ef) ||   -- Devicons
      (0xea60 ≤ code && code ≤ 0xec1e) ||   -- Codicons
      (0xed00 ≤ code && code ≤ 0xefce) ||   -- Font Awesome (relocated)
      (0xf000 ≤ code && code ≤ 0xf2ff) ||   -- Font Awesome (relocated)
      (0xf300 ≤ code && code ≤ 0xf381) ||   -- Font Logos
      (0xf400 ≤ code && code ≤ 0xf533) ||   -- Octicons (relocated)
      (0xf500 ≤ code && code ≤ 0xfd46) ||   -- Material Design (old)
      (0xf0001 ≤ code && code ≤ 0xf1af0)    -- Material Design (new)

/-! ## `handleGridLine` -/

/-- One entry of a `grid_line` cell run list: either a bare glyph string or
an array `[glyph]`, `[glyph, hlId]`, `[glyph, hlId, repeat]`
(`hl := none` also covers an explicitly `undefined` second slot). -/
inductive CellData where
  | bare (s : String)
  | arr (glyph : String) (hl : Option Int) (rep : Option Int)
deriving Repr, DecidableEq

/-- Glyph of a run, with the JS `cellData[0] || " "` fallback
(an empty string is falsy and becomes a space). -/
def cellChar : CellData → String
  | .bare s => if s = "" then " " else s
  | .arr g _ _ => if g = "" then " " else g

/-- Highlight id in force after this run, starting from `cur`
(`currentHlId` is overwritten only when the tuple carries a defined id). -/
def cellNewHl (cur : Int) : CellData → Int
  | .bare _ => cur
  | .arr _ (some h) _ => h
  | .arr _ none _ => cur

/-- Repeat count of a run (`cellData.length > 2 ? cellData[2] : 1`). -/
def cellRepeat : CellData → Int
  | .bare _ => 1
  | .arr _ _ (some r) => r
  | .arr _ _ none => 1

/-- The cell written for glyph `ch` under highlight id `hlId`:
`this.highlights.get(hlId) || {fg: this.colors.fg, bg: this.colors.bg}`,
then `{char, fg, bg, isDoubleWidth}`. -/
def mkCell (R : Renderer) (ch : String) (hlId : Int) : Cell :=
  let fgc := match hlGet R.highlights hlId with
    | some h => h.fg
    | none => R.colorsFg
  let bgc := match hlGet R.highlights hlId with
    | some h => h.bg
    | none => R.colorsBg
  { char := ch, fg := fgc, bg := bgc, isDoubleWidth := isDoubleWidth ch }

/-- The inner repetition loop of `handleGridLine`:
`for (let i = 0; i < repeatCount && col < this.cols; i++) { …; col++ }`.
Returns the updated grid and the final column. -/
def writeReps (R : Renderer) (row : Int) (ch : String) (hlId : Int) :
    Nat → Int → List (List Cell) → List (List Cell) × Int
  | 0, col, g => (g, col)
  | n + 1, col, g =>
    if col < R.cols then
      writeReps R row ch hlId n (col + 1) (setCell g row col (mkCell R ch hlId))
    else (g, col)

/-- The outer run loop of `handleGridLine` (`for (const cellData of cells)`
with the `if (col >= this.cols) break;` check at the top of each turn). -/
def applyCells (R : Renderer) (row : Int) :
    List CellData → Int → Int → List (List Cell) → List (List Cell)
  | [], _, _, g => g
  | cd :: rest, col, currentHlId, g =>
    if R.cols ≤ col then g
    else
      let newHl := cellNewHl currentHlId cd
      let r1 := writeReps R row (cellChar cd) newHl (cellRepeat cd).toNat col g
      applyCells R row rest r1.2 newHl r1.1

/-- One `lineData` entry of a `grid_line` event
(`[grid, row, colStart, cells, wrap]`; the `wrap` flag is unused). -/
structure GridLineData where
  grid : Int
  row : Int
  colStart : Int
  cells : List CellData
deriving Repr, DecidableEq

/-- Application of one `lineData`: skip foreign grids and out-of-bounds
rows; otherwise walk the runs from `colStart` with `currentHlId = 0`. -/
def applyGridLine (R : Renderer) (ld : GridLineData) : Renderer :=
  if ld.grid ≠ 1 then R
  else if ld.row ≥ R.rows ∨ ld.row < 0 then R
  else { R with grid := applyCells R ld.row ld.cells ld.colStart 0 R.grid }

/-- renderer.js `handleGridLine` over the entries of one event. -/
def handleGridLine (R : Renderer) (eventData : List GridLineData) : Renderer :=
  eventData.foldl applyGridLine R

/-! ## `handleGridScroll` -/

/-- One `scrollData` entry `[grid, top, bot, left, right, rows, cols]`
(`rows` is the vertical delta; the column delta is ignored by the source). -/
structure GridScrollData where
  grid : Int
  top : Int
  bot : Int
  left : Int
  right : Int
  rows : Int
  cols : Int
deriving Repr, DecidableEq

/-- Column loop of the upward copy phase (`rows > 0`):
`if (row + rows < this.rows && col < this.cols)
   this.grid[row][col] = this.grid[row + rows][col]`.
A read that misses the matrix leaves the grid unchanged (the valid regions
of the claims never reach it). -/
def scrollColsUp (R : Renderer) (row d : Int) :
    Nat → Int → List (List Cell) → List (List Cell)
  | 0, _, g => g
  | n + 1, col, g =>
    let g' :=
      if row + d < R.rows ∧ col < R.cols then
        match getCell g (row + d) col with
        | some c => setCell g row col c
        | none => g
      else g
    scrollColsUp R row d n (col + 1) g'

/-- Row loop of the upward copy phase, ascending from `top`
(`for (let row = top; row < bot - rows; row++)`). -/
def scrollRowsUp (R : Renderer) (d left : Int) (ncols : Nat) :
    Nat → Int → List (List Cell) → List (List Cell)
  | 0, _, g => g
  | n + 1, row, g =>
    scrollRowsUp R d left ncols n (row + 1) (scrollColsUp R row d ncols left g)

/-- Column loop of the downward copy phase (`rows < 0`):
`if (row - absRows >= 0 && col < this.cols)
   this.grid[row][col] = this.grid[row - absRows][col]`. -/
def scrollColsDown (R : Renderer) (row absRows : Int) :
    Nat → Int → List (List Cell) → List (List Cell)
  | 0, _, g => g
  | n + 1, col, g =>
    let g' :=
      if 0 ≤ row - absRows ∧ col < R.cols then
        match getCell g (row - absRows) col with
        | some c => setCell g row col c
        | none => g
      else g
    scrollColsDown R row absRows n (col + 1) g'

/-- Row loop of the downward copy phase, descending from `bot - 1`
(`for (let row = bot - 1; row >= top + absRows; row--)`). -/
def scrollRowsDown (R : Renderer) (absRows left : Int) (ncols : Nat) :
    Nat → Int → List (List Cell) → List (List Cell)
  | 0, _, g => g
  | n + 1, row, g =>
    scrollRowsDown R absRows left ncols n (row - 1) (scrollColsDown R row absRows ncols left g)

/-- Column loop of a blank phase:
`if (row < this.rows && col < this.cols) this.grid[row][col] = blank`. -/
def blankCols (R : Renderer) (row : Int) :
    Nat → Int → List (List Cell) → List (List Cell)
  | 0, _, g => g
  | n + 1, col, g =>
    let g' :=
      if row < R.rows ∧ col < R.cols then setCell g row col (blankCell R) else g
    blankCols R row n (col + 1) g'

/-- Row loop of a blank phase, ascending. -/
def blankRows (R : Renderer) (left : Int) (ncols : Nat) :
    Nat → Int → List (List Cell) → List (List Cell)
  | 0, _, g => g
  | n + 1, row, g =>
    blankRows R left ncols n (row + 1) (blankCols R row ncols left g)

/-- Application of one `scrollData` entry of `grid_scroll`. -/
def applyGridScroll (R : Renderer) (sd : GridScrollData) : Renderer :=
  if sd.grid ≠ 1 then R
  else
    let ncols := (sd.right - sd.left).toNat
    if sd.rows > 0 then
      let g1 := scrollRowsUp R sd.rows sd.left ncols
        (sd.bot - sd.rows - sd.top).toNat sd.top R.grid
      let g2 := blankRows R sd.left ncols sd.rows.toNat (sd.bot - sd.rows) g1
      { R with grid := g2 }
    else if sd.rows < 0 then
      let absRows := |sd.rows|
      let g1 := scrollRowsDown R absRows sd.left ncols
        (sd.bot - (sd.top + absRows)).toNat (sd.bot - 1) R.grid
      let g2 := blankRows R sd.left ncols absRows.toNat sd.top g1
      { R with grid := g2 }
    else R

/-- renderer.js `handleGridScroll` over the entries of one event. -/
def handleGridScroll (R : Renderer) (eventData : List GridScrollData) : Renderer :=
  eventData.foldl applyGridScroll R

/-! ## Specification vocabulary for the decoder claims -/

/-- Total number of cells a run list writes when nothing is truncated. -/
def runsTotal (cells : List CellData) : Nat :=
  (cells.map (fun cd => (cellRepeat cd).toNat)).sum

/-- The carry-forward highlight id after processing a run list, starting
from `cur` (`0` at the start of a line). -/
def carriedHl (cur : Int) : List CellData → Int
  | [] => cur
  | cd :: rest => carriedHl (cellNewHl cur cd) rest

/-- Functional reading of a run list: glyph and resolved highlight id at
offset `off` from the start of the list (`none` past the end). -/
def specCellAt (cur : Int) : List CellData → Nat → Option (String × Int)
  | [], _ => none
  | cd :: rest, off =>
    let rep := (cellRepeat cd).toNat
    let hl := cellNewHl cur cd
    if off < rep then some (cellChar cd, hl)
    else specCellAt hl rest (off - rep)

/-- Well-formedness of the renderer state: the stored dimensions describe
the matrix (maintained by `initGrid` / `handleGridResize` / `resize`). -/
def Renderer.WF (R : Renderer) : Prop :=
  0 ≤ R.rows ∧ 0 ≤ R.cols ∧
  R.grid.length = R.rows.toNat ∧
  ∀ rowL ∈ R.grid, rowL.length = R.cols.toNat

/-- Index-wise grid shape: `nr` rows, each of length `nc`. -/
def gridShape (g : List (List Cell)) (nr nc : Nat) : Prop :=
  g.length = nr ∧ ∀ i : Nat, i < nr → ∃ rowL, g[i]? = some rowL ∧ rowL.length = nc

/-- Two grids with the same silhouette (row count and row lengths). -/
def shapeEq (g g' : List (List Cell)) : Prop :=
  g'.length = g.length ∧
  ∀ i : Nat, (g'[i]?).map List.length = (g[i]?).map List.length

/-! ## Lemmas about the outbound-message guard and message dispatch -/

theorem countSessionClosed_append (a b : List OutMsg) :
    countSessionClosed (a ++ b) = countSessionClosed a + countSessionClosed b := by
  simp [countSessionClosed, List.filter_append]

theorem sendToClient_active (s : ClientSession) (m : OutMsg) (h : s.active = true) :
    sendToClient s m = [m] := by
  simp [sendToClient, h]

theorem sendToClient_closed (s : ClientSession) (m : OutMsg)
    (h : m.type = "session_closed") : sendToClient s m = [m] := by
  simp [sendToClient, h]

theorem sendToClient_dropped (s : ClientSession) (m : OutMsg)
    (hA : s.active = false) (hT : m.type ≠ "session_closed") :
    sendToClient s m = [] := by
  simp [sendToClient, hA, hT]

/-- A non-`connect` message on an inactive session is a complete no-op:
the "Not connected to Neovim" error reply is itself dropped by the guard. -/
theorem handleClientMessage_inactive (s : ClientSession) (m : ClientMsg)
    (hnc : m.isConnect = false) (hA : s.active = false) :
    handleClientMessage s m = (s, [], []) := by
  cases m <;> simp_all [ClientMsg.isConnect, handleClientMessage, sendToClient, hA]

/-- Each non-`connect` message writes at most one `session_closed`, and
doing so leaves the session deactivated. -/
theorem handleClientMessage_closed_step (s : ClientSession) (m : ClientMsg)
    (hnc : m.isConnect = false) :
    countSessionClosed (handleClientMessage s m).2.1 ≤ 1 ∧
    (1 ≤ countSessionClosed (handleClientMessage s m).2.1 →
      (handleClientMessage s m).1.active = false) := by
  cases hA : s.active
  · rw [handleClientMessage_inactive s m hnc hA]
    simp [countSessionClosed]
  · cases hN : s.nvim
    · have hcm : handleClientMessage s m =
          (s, [⟨"error", some "Not connected to Neovim"⟩], []) := by
        cases m <;> simp_all [ClientMsg.isConnect, handleClientMessage, sendToClient]
      rw [hcm]
      simp [countSessionClosed]
    · have hcm : handleClientMessage s m = handleNeovimCommand s m := by
        cases m <;> simp_all [ClientMsg.isConnect, handleClientMessage]
      rw [hcm]
      cases m with
      | connect a d => simp [ClientMsg.isConnect] at hnc
      | attachUi w h e =>
        cases e with
        | none => simp [handleNeovimCommand, hA, hN, countSessionClosed]
        | some err =>
          by_cases hs : hasSubstr err "session closed" = true
          · simp [handleNeovimCommand, hA, hN, hs, sendToClient, msgSessionClosed,
              countSessionClosed]
          · simp [handleNeovimCommand, hA, hN, hs, countSessionClosed]
      | input d e =>
        cases e with
        | none => simp [handleNeovimCommand, hA, hN, countSessionClosed]
        | some err =>
          by_cases hs : hasSubstr err "session closed" = true
          · simp [handleNeovimCommand, hA, hN, hs, sendToClient, msgSessionClosed,
              countSessionClosed]
          · simp [handleNeovimCommand, hA, hN, hs, countSessionClosed]
      | command d e =>
        by_cases hu : hasSubstr d "nvim_ui_attach" = true
        · simp [handleNeovimCommand, hA, hN, hu, countSessionClosed]
        · cases hcut : cutPrefixStr d "lua " <;>
            simp [handleNeovimCommand, hA, hN, hu, hcut, countSessionClosed]
      | resize w h e =>
        cases hu : s.uiAttached
        · simp [handleNeovimCommand, hA, hN, hu, countSessionClosed]
        · cases e with
          | none => simp [handleNeovimCommand, hA, hN, hu, countSessionClosed]
          | some err =>
            by_cases h1 : hasSubstr err "UI not attached" = true
            · simp [handleNeovimCommand, hA, hN, hu, h1, countSessionClosed]
            · by_cases h2 : hasSubstr err "session closed" = true
              · simp [handleNeovimCommand, hA, hN, hu, h1, h2, sendToClient,
                  msgSessionClosed, countSessionClosed]
              · simp [handleNeovimCommand, hA, hN, hu, h1, h2, countSessionClosed]
      | mouse a b r c e =>
        have hcond : (!s.active || !s.nvim) = false := by rw [hA, hN]; rfl
        have hite : ∀ (istr : String),
            ((if istr ≠ "" then (s, ([] : List OutMsg), [RpcCall.input istr])
              else (s, ([] : List OutMsg), ([] : List RpcCall))).2.1) = [] := by
          intro istr
          split <;> rfl
        have hout : (handleNeovimCommand s (ClientMsg.mouse a b r c e)).2.1 = [] := by
          simp only [handleNeovimCommand, hcond, Bool.false_eq_true, if_false]
          exact hite _
        simp [countSessionClosed, hout]
      | scroll d r c e =>
        simp [handleNeovimCommand, hA, hN, countSessionClosed]
      | clipboardContent d e =>
        simp [handleNeovimCommand, hA, hN, countSessionClosed]
      | other t =>
        simp [handleNeovimCommand, hA, hN, countSessionClosed]

/-- On an inactive session, a whole trace of non-`connect` messages is a
complete no-op. -/
theorem handleMessages_inactive (s : ClientSession) (msgs : List ClientMsg)
    (hnc : ∀ m ∈ msgs, m.isConnect = false) (hA : s.active = false) :
    handleMessages s msgs = (s, [], []) := by
  induction msgs with
  | nil => rfl
  | cons m rest ih =>
    have h1 := handleClientMessage_inactive s m (hnc m (by simp)) hA
    simp [handleMessages, h1]
    exact ih (fun m hm => hnc m (by simp [hm]))

/-- The command paths collectively write at most one `session_closed`
over any sequence of non-`connect` messages. -/
theorem handleMessages_closed_bound (s : ClientSession) (msgs : List ClientMsg)
    (hnc : ∀ m ∈ msgs, m.isConnect = false) :
    countSessionClosed (handleMessages s msgs).2.1 ≤ 1 := by
  induction msgs generalizing s with
  | nil => simp [handleMessages, countSessionClosed]
  | cons m rest ih =>
    have hm := handleClientMessage_closed_step s m (hnc m (by simp))
    have hrest : ∀ m' ∈ rest, m'.isConnect = false := fun m' hm' => hnc m' (by simp [hm'])
    simp only [handleMessages, countSessionClosed_append]
    rcases Nat.lt_or_ge (countSessionClosed (handleClientMessage s m).2.1) 1 with h1 | h1
    · have : countSessionClosed (handleClientMessage s m).2.1 = 0 := by omega
      rw [this]
      simpa using ih (handleClientMessage s m).1 hrest
    · have hA := hm.2 h1
      rw [handleMessages_inactive _ rest hrest hA]
      have h0 : countSessionClosed
          (((handleClientMessage s m).1, ([] : List OutMsg), ([] : List RpcCall)).2.1) = 0 := rfl
      have h1 := hm.1
      omega

/-- The service-loop return path writes exactly one `session_closed`,
unconditionally. -/
theorem serveLoopReturn_closed (s : ClientSession) :
    countSessionClosed (serveLoopReturn s).2 = 1 := by
  rfl

/-! ## Claim C1 -/

/-- C1 (code evaluation at the failing input): for an Idle session
(`active = false`, no RPC connection), a `connect` whose dial fails makes
the dial call, leaves the session exactly as it was — and writes NOTHING
to the client: the "Failed to connect to Neovim: …" error reply built by
`handleClientMessage` is discarded by the `sendToClient` active-guard, so
the client never receives the error message the claim promises. -/
theorem c1_dial_failure_error_dropped (s : ClientSession) (address err : String)
    (hIdle : s.active = false) (hNoNvim : s.nvim = false) :
    handleClientMessage s (.connect (some address) (some err)) =
      (s, [], [.dial address]) := by
  obtain ⟨nv, ad, ac, ui⟩ := s
  simp only at hIdle hNoNvim
  subst hIdle hNoNvim
  simp [handleClientMessage, sendToClient]

/-- Witness: the freshly created session handling
`connect{address:"127.0.0.1:6666"}` against an unreachable address. -/
theorem c1_dial_failure_error_dropped_witness :
    handleClientMessage newSession
        (.connect (some "127.0.0.1:6666") (some "connection refused")) =
      (newSession, [], [.dial "127.0.0.1:6666"]) :=
  c1_dial_failure_error_dropped newSession "127.0.0.1:6666" "connection refused" rfl rfl

/-! ## Claim C2 -/

/-- C2 is refuted on the code: an Active session whose `input` RPC fails
with a "session closed" error emits one `session_closed`, and the service
loop returning afterwards unconditionally emits a second one — two
`session_closed` messages in total, not exactly one. -/
theorem c2_two_session_closed_messages :
    countSessionClosed
      ((handleMessages ⟨true, "127.0.0.1:6666", true, true⟩
          [.input "x" (some "rpc error: session closed")]).2.1 ++
       (serveLoopReturn
          (handleMessages ⟨true, "127.0.0.1:6666", true, true⟩
            [.input "x" (some "rpc error: session closed")]).1).2) = 2 := by
  decide

/-- C2 (amended): over any sequence of non-`connect` client messages with
arbitrary remote-call outcomes, the command paths write at most one
`session_closed` (the first closure deactivates the session and later
commands are rejected before reaching the RPC layer), while the service
loop's return always writes exactly one more, unconditionally. -/
theorem c2_session_closed_accounting (s : ClientSession) (msgs : List ClientMsg)
    (hnc : ∀ m ∈ msgs, m.isConnect = false) :
    countSessionClosed (handleMessages s msgs).2.1 ≤ 1 ∧
    (∀ s' : ClientSession, countSessionClosed (serveLoopReturn s').2 = 1) :=
  ⟨handleMessages_closed_bound s msgs hnc, fun s' => serveLoopReturn_closed s'⟩

/-- Witness for the amended C2 at a concrete session and message list. -/
theorem c2_session_closed_accounting_witness :
    countSessionClosed
      ((handleMessages ⟨true, "a", true, true⟩
        [.input "x" (some "rpc error: session closed"),
         .resize 80 24 (some "rpc error: session closed")]).2.1) ≤ 1 ∧
    countSessionClosed (serveLoopReturn ⟨true, "a", true, true⟩).2 = 1 :=
  ⟨(c2_session_closed_accounting ⟨true, "a", true, true⟩
      [.input "x" (some "rpc error: session closed"),
       .resize 80 24 (some "rpc error: session closed")] (by decide)).1,
   (c2_session_closed_accounting ⟨true, "a", true, true⟩ [] (by decide)).2
      ⟨true, "a", true, true⟩⟩

/-! ## Claim C6 -/

/-- C6: (1) with the UI-attached flag false, a `resize` makes no RPC call
and changes no session state; (2) a `resize` failing with a "UI not
attached" error clears the flag; (3) from a cleared flag, any sequence of
`resize` messages makes no RPC call and leaves the session unchanged;
(4) a successful `attach_ui` sets the flag true again. -/
theorem c6_resize_ui_not_attached_gate :
    (∀ (s : ClientSession) (w h : Int) (e : Option String), s.uiAttached = false →
      (handleClientMessage s (.resize w h e)).1 = s ∧
      (handleClientMessage s (.resize w h e)).2.2 = []) ∧
    (∀ (s : ClientSession) (w h : Int) (err : String),
      s.active = true → s.nvim = true → s.uiAttached = true →
      hasSubstr err "UI not attached" = true →
      handleClientMessage s (.resize w h (some err)) =
        ({ s with uiAttached := false }, [], [.tryResizeUI w h])) ∧
    (∀ (s : ClientSession) (msgs : List ClientMsg),
      s.uiAttached = false → (∀ m ∈ msgs, ∃ w h e, m = .resize w h e) →
      (handleMessages s msgs).1 = s ∧ (handleMessages s msgs).2.2 = []) ∧
    (∀ (s : ClientSession) (w h : Int),
      s.active = true → s.nvim = true →
      handleClientMessage s (.attachUi w h none) =
        ({ s with uiAttached := true }, [], [.attachUI w h])) := by
  have part1 : ∀ (s : ClientSession) (w h : Int) (e : Option String),
      s.uiAttached = false →
      (handleClientMessage s (.resize w h e)).1 = s ∧
      (handleClientMessage s (.resize w h e)).2.2 = [] := by
    intro s w h e hu
    cases hA : s.active <;> cases hN : s.nvim <;>
      simp [handleClientMessage, handleNeovimCommand, sendToClient, hA, hN, hu]
  refine ⟨part1, ?_, ?_, ?_⟩
  · intro s w h err hA hN hu herr
    simp [handleClientMessage, handleNeovimCommand, hA, hN, hu, herr]
  · intro s msgs hu hres
    induction msgs with
    | nil => exact ⟨rfl, rfl⟩
    | cons m rest ih =>
      obtain ⟨w, h, e, rfl⟩ := hres m (by simp)
      have h1 := part1 s w h e hu
      have hrest : ∀ m' ∈ rest, ∃ w h e, m' = ClientMsg.resize w h e :=
        fun m' hm' => hres m' (List.mem_cons_of_mem _ hm')
      simp only [handleMessages, h1.1, h1.2]
      obtain ⟨ih1, ih2⟩ := ih hrest
      exact ⟨ih1, by simp [ih2]⟩
  · intro s w h hA hN
    simp [handleClientMessage, handleNeovimCommand, hA, hN]

/-- Witness for C6 at a concrete attached and detached session. -/
theorem c6_resize_ui_not_attached_gate_witness :
    (handleClientMessage ⟨true, "a", true, false⟩ (.resize 100 50 none)).2.2 = [] ∧
    handleClientMessage ⟨true, "a", true, true⟩
        (.resize 100 50 (some "nvim error: UI not attached")) =
      (⟨true, "a", true, false⟩, [], [.tryResizeUI 100 50]) ∧
    (handleMessages ⟨true, "a", true, false⟩
        [.resize 1 1 none, .resize 2 2 (some "boom")]).2.2 = [] ∧
    handleClientMessage ⟨true, "a", true, false⟩ (.attachUi 80 24 none) =
      (⟨true, "a", true, true⟩, [], [.attachUI 80 24]) :=
  ⟨(c6_resize_ui_not_attached_gate.1 ⟨true, "a", true, false⟩ 100 50 none rfl).2,
   c6_resize_ui_not_attached_gate.2.1 ⟨true, "a", true, true⟩ 100 50
     "nvim error: UI not attached" rfl rfl rfl (by decide),
   (c6_resize_ui_not_attached_gate.2.2.1 ⟨true, "a", true, false⟩
     [.resize 1 1 none, .resize 2 2 (some "boom")] rfl
     (by intro m hm
         simp only [List.mem_cons, List.mem_singleton] at hm
         rcases hm with rfl | rfl | h
         · exact ⟨_, _, _, rfl⟩
         · exact ⟨_, _, _, rfl⟩
         · simp at h)).2,
   c6_resize_ui_not_attached_gate.2.2.2 ⟨true, "a", true, false⟩ 80 24 rfl rfl⟩

/-! ## Claim C7 -/

/-- C7: on an active session with the clipboard bridge installed, a
`clipboard_copy` notification with content "hello" produces exactly one
`clipboard_set{data:"hello"}` message, a `clipboard_paste` notification
exactly one `clipboard_get` message, and a `clipboard_content{data:"world"}`
client message exactly one `nvim_server_clipboard` variable-set call. -/
theorem c7_clipboard_roundtrip (s : ClientSession)
    (hA : s.active = true) (hN : s.nvim = true) :
    Clip.clipboardCopyHandler s "hello" = [⟨"clipboard_set", some "hello"⟩] ∧
    Clip.clipboardPasteHandler s = [⟨"clipboard_get", none⟩] ∧
    Clip.handleClipboardContent s "world" =
      [.setVar "nvim_server_clipboard" "world"] := by
  refine ⟨?_, ?_, ?_⟩ <;>
    simp [Clip.clipboardCopyHandler, Clip.clipboardPasteHandler,
      Clip.handleClipboardContent, sendToClient, hA, hN]

/-- Witness for C7 at a concrete active session. -/
theorem c7_clipboard_roundtrip_witness :
    Clip.clipboardCopyHandler ⟨true, "a", true, true⟩ "hello" =
      [⟨"clipboard_set", some "hello"⟩] ∧
    Clip.clipboardPasteHandler ⟨true, "a", true, true⟩ = [⟨"clipboard_get", none⟩] ∧
    Clip.handleClipboardContent ⟨true, "a", true, true⟩ "world" =
      [.setVar "nvim_server_clipboard" "world"] :=
  c7_clipboard_roundtrip ⟨true, "a", true, true⟩ rfl rfl

/-! ## Claim C9 -/

/-- C9: `sendToClient` writes a non-`session_closed` message iff the
session's active flag is true at the call; `session_closed` messages are
written regardless of the flag; error replies on an inactive session are
silently dropped; and the initial `ready` message is written directly to
the transport by `handleWebSocket` while the fresh session is inactive
(bypassing the guard, which would have dropped it). -/
theorem c9_sendToClient_active_guard :
    (∀ (s : ClientSession) (m : OutMsg), m.type ≠ "session_closed" →
      (sendToClient s m = [m] ↔ s.active = true)) ∧
    (∀ (s : ClientSession) (m : OutMsg), m.type = "session_closed" →
      sendToClient s m = [m]) ∧
    (∀ (s : ClientSession) (e : Option String), s.active = false →
      sendToClient s ⟨"error", e⟩ = []) ∧
    handleWebSocketInit = (newSession, [readyMessage]) ∧
    newSession.active = false ∧
    sendToClient newSession readyMessage = [] := by
  refine ⟨?_, ?_, ?_, rfl, rfl, rfl⟩
  · intro s m hm
    cases hA : s.active <;> simp [sendToClient, hA, hm]
  · intro s m hm
    exact sendToClient_closed s m hm
  · intro s e hA
    exact sendToClient_dropped s ⟨"error", e⟩ hA (by simp)

/-- Witness for C9 at concrete sessions and messages. -/
theorem c9_sendToClient_active_guard_witness :
    sendToClient ⟨true, "a", true, false⟩ ⟨"redraw", some "d"⟩ = [⟨"redraw", some "d"⟩] ∧
    sendToClient newSession msgSessionClosed = [msgSessionClosed] ∧
    sendToClient newSession ⟨"error", some "Failed to connect to Neovim: x"⟩ = [] :=
  ⟨(c9_sendToClient_active_guard.1 ⟨true, "a", true, false⟩ ⟨"redraw", some "d"⟩
      (by decide)).2 rfl,
   c9_sendToClient_active_guard.2.1 newSession msgSessionClosed rfl,
   c9_sendToClient_active_guard.2.2.1 newSession
     (some "Failed to connect to Neovim: x") rfl⟩

/-! ## Hex formatting lemmas (for C4) -/

theorem toHexDigitsAux_congr : ∀ (n f f' : Nat), n < f → n < f' →
    toHexDigitsAux f n = toHexDigitsAux f' n := by
  intro n
  induction n using Nat.strong_induction_on with
  | _ n ih =>
    intro f f' hf hf'
    match f, f' with
    | f + 1, f' + 1 =>
      by_cases h16 : n < 16
      · simp [toHexDigitsAux, h16]
      · have hdiv : n / 16 < n := Nat.div_lt_self (by omega) (by omega)
        simp only [toHexDigitsAux, h16, if_false]
        rw [ih (n / 16) hdiv f f' (by omega) (by omega)]

/-- The defining recurrence of `toHexDigits`. -/
theorem toHexDigits_step (n : Nat) :
    toHexDigits n =
      if n < 16 then [hexDigit n]
      else toHexDigits (n / 16) ++ [hexDigit (n % 16)] := by
  by_cases h16 : n < 16
  · simp [toHexDigits, toHexDigitsAux, h16]
  · conv_lhs => rw [toHexDigits, toHexDigitsAux]
    rw [if_neg h16, if_neg h16,
      toHexDigitsAux_congr (n / 16) n (n / 16 + 1) (by omega) (by omega)]
    rfl

theorem toHexDigits_length_le : ∀ (k n : Nat), 1 ≤ k → n < 16 ^ k →
    (toHexDigits n).length ≤ k := by
  intro k
  induction k with
  | zero => omega
  | succ k ih =>
    intro n _ hn
    rw [toHexDigits_step]
    by_cases h16 : n < 16
    · rw [if_pos h16]
      simp only [List.length_singleton]
      omega
    · have hk : 1 ≤ k := by
        by_contra h
        have : k = 0 := by omega
        subst this
        simp at hn
        omega
      have hdivlt : n / 16 < 16 ^ k := by
        rw [Nat.div_lt_iff_lt_mul (by omega)]
        calc n < 16 ^ (k + 1) := hn
        _ = 16 ^ k * 16 := by ring
      have := ih (n / 16) hk hdivlt
      rw [if_neg h16]
      simp only [List.length_append, List.length_singleton]
      omega

theorem hexDigitVal_hexDigit : ∀ m < 16, hexDigitVal (hexDigit m) = m := by decide

/-- Folding the decoder over the digit list of `n` recovers `n`. -/
theorem foldl_toHexDigits (a : Nat) : ∀ (n : Nat),
    (toHexDigits n).foldl (fun acc c => 16 * acc + hexDigitVal c) a =
      a * 16 ^ (toHexDigits n).length + n := by
  intro n
  induction n using Nat.strong_induction_on generalizing a with
  | _ n ih =>
    rw [toHexDigits_step]
    by_cases h16 : n < 16
    · simp [h16, List.foldl, hexDigitVal_hexDigit n h16]
      ring
    · have hdiv : n / 16 < n := Nat.div_lt_self (by omega) (by omega)
      simp only [h16, if_false, List.foldl_append, List.foldl, List.length_append,
        List.length_singleton]
      rw [ih (n / 16) hdiv a]
      rw [hexDigitVal_hexDigit (n % 16) (Nat.mod_lt n (by omega))]
      have : a * 16 ^ ((toHexDigits (n / 16)).length + 1) =
          (a * 16 ^ (toHexDigits (n / 16)).length) * 16 := by ring
      rw [this]
      have hmod := Nat.div_add_mod n 16
      ring_nf
      omega

/-- Decoding after left-padding with '0' characters changes nothing. -/
theorem foldl_replicate_zero (k : Nat) (l : List Char) :
    ((List.replicate k '0') ++ l).foldl (fun acc c => 16 * acc + hexDigitVal c) 0 =
      l.foldl (fun acc c => 16 * acc + hexDigitVal c) 0 := by
  induction k with
  | zero => simp
  | succ k ih =>
    simp only [List.replicate_succ, List.cons_append, List.foldl]
    have : 16 * 0 + hexDigitVal '0' = 0 := by decide
    rw [this]
    exact ih

/-- For a value in the 24-bit range, `padStart6 ∘ toHexDigits` yields exactly
six hex digits that decode back to the value. -/
theorem format6 (n : Nat) (hn : n < 16 ^ 6) :
    (padStart6 ⟨toHexDigits n⟩).length = 6 ∧
    hexStrVal (padStart6 ⟨toHexDigits n⟩) = n := by
  have hlen : (toHexDigits n).length ≤ 6 := toHexDigits_length_le 6 n (by omega) hn
  have hdecode : (toHexDigits n).foldl (fun acc c => 16 * acc + hexDigitVal c) 0 = n := by
    rw [foldl_toHexDigits 0 n]
    simp
  by_cases h6 : 6 ≤ (toHexDigits n).length
  · have heq : (toHexDigits n).length = 6 := by omega
    constructor
    · simp [padStart6, String.length, heq]
    · simp [padStart6, String.length, heq, hexStrVal]
      exact hdecode
  · have hslen : (String.mk (toHexDigits n)).length = (toHexDigits n).length := rfl
    constructor
    · simp [padStart6, String.length, h6, hslen]
      omega
    · simp only [padStart6, String.length, hslen, if_neg h6, hexStrVal]
      have hdata : ((String.mk (List.replicate (6 - (toHexDigits n).length) '0')) ++
          (String.mk (toHexDigits n))).data =
          (List.replicate (6 - (toHexDigits n).length) '0') ++ toHexDigits n := rfl
      rw [hdata, foldl_replicate_zero]
      exact hdecode

/-! ## Claim C4 -/

/-- C4: colour resolution.  `null`/absent and `-1` resolve to the default
(`none`); any other negative value in the signed 24-bit range resolves to
`v + 0x1000000` formatted as exactly six lowercase hex digits after `#`
(so `-7` resolves to `#fffff9`); a non-negative 24-bit value is formatted
directly as six hex digits. -/
theorem c4_color_resolution :
    rgbToHex none = none ∧
    rgbToHex (some (-1)) = none ∧
    rgbToHex (some (-7)) = some "#fffff9" ∧
    (∀ v : Int, -0x1000000 ≤ v → v < 0 → v ≠ -1 →
      ∃ s : String, rgbToHex (some v) = some ("#" ++ s) ∧
        s.length = 6 ∧ hexStrVal s = (v + 0x1000000).toNat) ∧
    (∀ v : Int, 0 ≤ v → v < 0x1000000 →
      ∃ s : String, rgbToHex (some v) = some ("#" ++ s) ∧
        s.length = 6 ∧ hexStrVal s = v.toNat) := by
  refine ⟨rfl, by decide, by decide, ?_, ?_⟩
  · intro v h1 h2 h3
    refine ⟨padStart6 (jsToString16 (0xffffff + v + 1)), ?_, ?_⟩
    · simp only [rgbToHex, if_neg h3, if_pos h2]
    · have hv0 : ¬((0xffffff + v + 1 : Int) < 0) := by omega
      have hjs : jsToString16 (0xffffff + v + 1) = ⟨toHexDigits (0xffffff + v + 1).toNat⟩ := by
        simp [jsToString16, hv0]
      have hbound : (0xffffff + v + 1 : Int).toNat < 16 ^ 6 := by omega
      have hfmt := format6 (0xffffff + v + 1).toNat hbound
      rw [hjs]
      refine ⟨hfmt.1, ?_⟩
      rw [hfmt.2]
      omega
  · intro v h1 h2
    have h3 : v ≠ -1 := by omega
    have h4 : ¬(v < 0) := by omega
    refine ⟨padStart6 (jsToString16 v), ?_, ?_⟩
    · simp only [rgbToHex, if_neg h3, if_neg h4]
    · have hjs : jsToString16 v = ⟨toHexDigits v.toNat⟩ := by
        simp [jsToString16, h4]
      have hbound : v.toNat < 16 ^ 6 := by omega
      have hfmt := format6 v.toNat hbound
      rw [hjs]
      exact ⟨hfmt.1, hfmt.2⟩

/-- Witness for C4 at `v = -7` and `v = 255`. -/
theorem c4_color_resolution_witness :
    (∃ s : String, rgbToHex (some (-7)) = some ("#" ++ s) ∧
      s.length = 6 ∧ hexStrVal s = ((-7 : Int) + 0x1000000).toNat) ∧
    (∃ s : String, rgbToHex (some 255) = some ("#" ++ s) ∧
      s.length = 6 ∧ hexStrVal s = (255 : Int).toNat) :=
  ⟨c4_color_resolution.2.2.2.1 (-7) (by decide) (by decide) (by decide),
   c4_color_resolution.2.2.2.2 255 (by decide) (by decide)⟩

/-! ## Cell access lemmas -/

theorem shapeEq_refl (g : List (List Cell)) : shapeEq g g :=
  ⟨rfl, fun _ => rfl⟩

theorem shapeEq_trans {g1 g2 g3 : List (List Cell)}
    (h12 : shapeEq g1 g2) (h23 : shapeEq g2 g3) : shapeEq g1 g3 :=
  ⟨h23.1.trans h12.1, fun i => (h23.2 i).trans (h12.2 i)⟩

theorem shapeEq_setCell (g : List (List Cell)) (r c : Int) (cell : Cell) :
    shapeEq g (setCell g r c cell) := by
  unfold setCell
  split
  · rcases hr : g[r.toNat]? with _ | rowL
    · simp [hr, shapeEq_refl]
    · constructor
      · simp
      · intro i
        by_cases hi : i = r.toNat
        · have hlen : r.toNat < g.length := by
            by_contra hcon
            rw [List.getElem?_eq_none (by omega)] at hr
            exact absurd hr (by simp)
          rw [hi, List.getElem?_set_self hlen, hr]
          simp
        · rw [List.getElem?_set_ne (by omega)]
  · exact shapeEq_refl g

theorem gridShape_of_shapeEq {g g' : List (List Cell)} {nr nc : Nat}
    (hs : gridShape g nr nc) (he : shapeEq g g') : gridShape g' nr nc := by
  refine ⟨he.1.trans hs.1, fun i hi => ?_⟩
  obtain ⟨rowL, hrow, hlen⟩ := hs.2 i hi
  have := he.2 i
  rw [hrow] at this
  rcases hrow' : g'[i]? with _ | rowL'
  · rw [hrow'] at this
    simp at this
  · rw [hrow'] at this
    simp only [Option.map_some'] at this
    have hll : rowL'.length = rowL.length := by
      exact Option.some.inj this
    exact ⟨rowL', rfl, by omega⟩

theorem gridShape_of_WF (R : Renderer) (h : R.WF) :
    gridShape R.grid R.rows.toNat R.cols.toNat := by
  obtain ⟨_, _, hlen, hrows⟩ := h
  refine ⟨hlen, fun i hi => ?_⟩
  have hi' : i < R.grid.length := by omega
  refine ⟨R.grid[i], List.getElem?_eq_some.2 ⟨hi', rfl⟩, ?_⟩
  exact hrows _ (List.getElem_mem hi')

/-- Reading back a just-written in-bounds cell. -/
theorem getCell_setCell_self {g : List (List Cell)} {nr nc : Nat}
    (hs : gridShape g nr nc) (r c : Int) (cell : Cell)
    (hr0 : 0 ≤ r) (hrn : r.toNat < nr) (hc0 : 0 ≤ c) (hcn : c.toNat < nc) :
    getCell (setCell g r c cell) r c = some cell := by
  obtain ⟨rowL, hrow, hlen⟩ := hs.2 r.toNat hrn
  have hrlen : r.toNat < g.length := by
    obtain ⟨hlt, -⟩ := List.getElem?_eq_some.1 hrow
    exact hlt
  have hset : setCell g r c cell = g.set r.toNat (rowL.set c.toNat cell) := by
    unfold setCell
    rw [if_pos ⟨hr0, hc0⟩, hrow]
  rw [hset]
  unfold getCell
  rw [if_pos ⟨hr0, hc0⟩]
  rw [List.getElem?_set_self hrlen]
  show (rowL.set c.toNat cell)[c.toNat]? = some cell
  rw [List.getElem?_set_self (by omega)]

/-- A write never changes any other cell. -/
theorem getCell_setCell_ne (g : List (List Cell)) (r c r' c' : Int) (cell : Cell)
    (hne : ¬(r' = r ∧ c' = c)) :
    getCell (setCell g r c cell) r' c' = getCell g r' c' := by
  unfold setCell
  split
  case isFalse => rfl
  case isTrue hrc =>
    rcases hrow : g[r.toNat]? with _ | rowL
    · rfl
    · unfold getCell
      split
      case isFalse => rfl
      case isTrue hrc' =>
        by_cases hr : r'.toNat = r.toNat
        · have hreq : r' = r := by omega
          subst hreq
          have hc : c'.toNat ≠ c.toNat := by
            intro hcc
            exact hne ⟨rfl, by omega⟩
          have hrlen : r'.toNat < g.length := by
            obtain ⟨hlt, -⟩ := List.getElem?_eq_some.1 hrow
            exact hlt
          rw [hr, List.getElem?_set_self hrlen, hrow]
          exact List.getElem?_set_ne (by omega)
        · rw [List.getElem?_set_ne (by omega)]

theorem getCell_of_rowL {g : List (List Cell)} {r : Int} {rowL : List Cell}
    (hrow : g[r.toNat]? = some rowL) (hr0 : 0 ≤ r) (c : Int) (hc0 : 0 ≤ c) :
    getCell g r c = rowL[c.toNat]? := by
  unfold getCell
  rw [if_pos ⟨hr0, hc0⟩, hrow]

/-! ## The inner repetition loop of `handleGridLine` -/

theorem writeReps_col_le (R : Renderer) (row : Int) (ch : String) (hl : Int) :
    ∀ (n : Nat) (col : Int) (g : List (List Cell)),
    col ≤ (writeReps R row ch hl n col g).2 := by
  intro n
  induction n with
  | zero => intro col g; exact le_refl col
  | succ n ih =>
    intro col g
    unfold writeReps
    split
    · exact le_trans (by omega) (ih (col + 1) _)
    · exact le_refl col

theorem writeReps_frame (R : Renderer) (row : Int) (ch : String) (hl : Int) :
    ∀ (n : Nat) (col : Int) (g : List (List Cell)) (r c : Int),
    (r ≠ row ∨ c < col ∨ R.cols ≤ c) →
    getCell (writeReps R row ch hl n col g).1 r c = getCell g r c := by
  intro n
  induction n with
  | zero => intro col g r c _; rfl
  | succ n ih =>
    intro col g r c h
    unfold writeReps
    split
    case isTrue hcol =>
      have h' : r ≠ row ∨ c < col + 1 ∨ R.cols ≤ c := by
        rcases h with h | h | h
        · exact Or.inl h
        · exact Or.inr (Or.inl (by omega))
        · exact Or.inr (Or.inr h)
      rw [ih (col + 1) _ r c h']
      apply getCell_setCell_ne
      rintro ⟨rfl, rfl⟩
      rcases h with h | h | h
      · exact h rfl
      · omega
      · omega
    case isFalse => rfl

theorem writeReps_shape (R : Renderer) (row : Int) (ch : String) (hl : Int) :
    ∀ (n : Nat) (col : Int) (g : List (List Cell)),
    shapeEq g (writeReps R row ch hl n col g).1 := by
  intro n
  induction n with
  | zero => intro col g; exact shapeEq_refl g
  | succ n ih =>
    intro col g
    unfold writeReps
    split
    · exact shapeEq_trans (shapeEq_setCell g row col (mkCell R ch hl)) (ih (col + 1) _)
    · exact shapeEq_refl g

theorem writeReps_spec (R : Renderer) (row : Int) (ch : String) (hl : Int)
    (hr0 : 0 ≤ row) (hrn : row < R.rows) :
    ∀ (n : Nat) (col : Int) (g : List (List Cell)),
    gridShape g R.rows.toNat R.cols.toNat →
    0 ≤ col → col + (n : Int) ≤ R.cols →
    (writeReps R row ch hl n col g).2 = col + (n : Int) ∧
    ∀ r c : Int, getCell (writeReps R row ch hl n col g).1 r c =
      if r = row ∧ col ≤ c ∧ c < col + (n : Int) then some (mkCell R ch hl)
      else getCell g r c := by
  intro n
  induction n with
  | zero =>
    intro col g hshape hc0 hfit
    refine ⟨by simp [writeReps], fun r c => ?_⟩
    rw [if_neg (by omega)]
    rfl
  | succ n ih =>
    intro col g hshape hc0 hfit
    have hcol : col < R.cols := by
      have : ((n : Int) + 1) = ((n + 1 : Nat) : Int) := by push_cast; ring
      omega
    have hshape' : gridShape (setCell g row col (mkCell R ch hl))
        R.rows.toNat R.cols.toNat :=
      gridShape_of_shapeEq hshape (shapeEq_setCell g row col (mkCell R ch hl))
    have hfit' : (col + 1) + (n : Int) ≤ R.cols := by push_cast at hfit ⊢; omega
    have hih := ih (col + 1) (setCell g row col (mkCell R ch hl)) hshape'
      (by omega) hfit'
    unfold writeReps
    rw [if_pos hcol]
    refine ⟨by rw [hih.1]; push_cast; ring, fun r c => ?_⟩
    rw [hih.2 r c]
    by_cases hregion : r = row ∧ col ≤ c ∧ c < col + ((n + 1 : Nat) : Int)
    · rw [if_pos hregion]
      obtain ⟨hr, hcl, hcu⟩ := hregion
      by_cases hc1 : col + 1 ≤ c
      · rw [if_pos ⟨hr, hc1, by push_cast at hcu ⊢; omega⟩]
      · have hceq : c = col := by omega
        rw [if_neg (by omega), hr, hceq]
        exact getCell_setCell_self hshape row col (mkCell R ch hl) hr0 (by omega)
          hc0 (by omega)
    · rw [if_neg hregion]
      rw [if_neg (by push_cast at hregion ⊢; omega)]
      apply getCell_setCell_ne
      rintro ⟨rfl, rfl⟩
      exact hregion ⟨rfl, by omega, by push_cast; omega⟩

/-! ## The outer run loop of `handleGridLine` -/

theorem runsTotal_cons (cd : CellData) (rest : List CellData) :
    runsTotal (cd :: rest) = (cellRepeat cd).toNat + runsTotal rest := by
  simp [runsTotal]

theorem specCellAt_cons (cur : Int) (cd : CellData) (rest : List CellData) (off : Nat) :
    specCellAt cur (cd :: rest) off =
      if off < (cellRepeat cd).toNat then some (cellChar cd, cellNewHl cur cd)
      else specCellAt (cellNewHl cur cd) rest (off - (cellRepeat cd).toNat) := rfl

theorem applyCells_shape (R : Renderer) (row : Int) :
    ∀ (cells : List CellData) (col cur : Int) (g : List (List Cell)),
    shapeEq g (applyCells R row cells col cur g) := by
  intro cells
  induction cells with
  | nil => intro col cur g; exact shapeEq_refl g
  | cons cd rest ih =>
    intro col cur g
    unfold applyCells
    split
    · exact shapeEq_refl g
    · exact shapeEq_trans
        (writeReps_shape R row (cellChar cd) (cellNewHl cur cd) (cellRepeat cd).toNat col g)
        (ih _ _ _)

theorem applyCells_frame (R : Renderer) (row : Int) :
    ∀ (cells : List CellData) (col cur : Int) (g : List (List Cell)) (r c : Int),
    (r ≠ row ∨ c < col ∨ R.cols ≤ c) →
    getCell (applyCells R row cells col cur g) r c = getCell g r c := by
  intro cells
  induction cells with
  | nil => intro col cur g r c _; rfl
  | cons cd rest ih =>
    intro col cur g r c h
    unfold applyCells
    split
    · rfl
    · have hcol2 := writeReps_col_le R row (cellChar cd) (cellNewHl cur cd)
        (cellRepeat cd).toNat col g
      have h' : r ≠ row ∨
          c < (writeReps R row (cellChar cd) (cellNewHl cur cd)
            (cellRepeat cd).toNat col g).2 ∨ R.cols ≤ c := by
        rcases h with h | h | h
        · exact Or.inl h
        · exact Or.inr (Or.inl (by omega))
        · exact Or.inr (Or.inr h)
      rw [ih _ _ _ r c h']
      exact writeReps_frame R row (cellChar cd) (cellNewHl cur cd)
        (cellRepeat cd).toNat col g r c h

theorem applyCells_spec (R : Renderer) (row : Int)
    (hr0 : 0 ≤ row) (hrn : row < R.rows) :
    ∀ (cells : List CellData) (col cur : Int) (g : List (List Cell)),
    gridShape g R.rows.toNat R.cols.toNat →
    0 ≤ col → col + (runsTotal cells : Int) ≤ R.cols →
    (∀ r c : Int, ¬(r = row ∧ col ≤ c ∧ c < col + (runsTotal cells : Int)) →
      getCell (applyCells R row cells col cur g) r c = getCell g r c) ∧
    (∀ c : Int, col ≤ c → c < col + (runsTotal cells : Int) →
      ∀ p : String × Int, specCellAt cur cells (c - col).toNat = some p →
      getCell (applyCells R row cells col cur g) row c = some (mkCell R p.1 p.2)) := by
  intro cells
  induction cells with
  | nil =>
    intro col cur g hshape hc0 hfit
    exact ⟨fun r c _ => rfl, fun c hcl hcu => by
      simp only [runsTotal, List.map_nil, List.sum_nil, Nat.cast_zero, add_zero] at hcu
      omega⟩
  | cons cd rest ih =>
    intro col cur g hshape hc0 hfit
    have htot : (runsTotal (cd :: rest) : Int) =
        ((cellRepeat cd).toNat : Int) + (runsTotal rest : Int) := by
      rw [runsTotal_cons]; push_cast; ring
    simp only [applyCells]
    split
    case isTrue hbreak =>
      constructor
      · intro r c _; rfl
      · intro c hcl hcu p hp
        omega
    case isFalse hbreak =>
      have hcol : col < R.cols := by omega
      have hrep : col + ((cellRepeat cd).toNat : Int) ≤ R.cols := by omega
      have hw := writeReps_spec R row (cellChar cd) (cellNewHl cur cd) hr0 hrn
        (cellRepeat cd).toNat col g hshape hc0 hrep
      have hshape1 : gridShape (writeReps R row (cellChar cd) (cellNewHl cur cd)
          (cellRepeat cd).toNat col g).1 R.rows.toNat R.cols.toNat :=
        gridShape_of_shapeEq hshape
          (writeReps_shape R row (cellChar cd) (cellNewHl cur cd) (cellRepeat cd).toNat col g)
      have hih := ih (col + ((cellRepeat cd).toNat : Int)) (cellNewHl cur cd)
        (writeReps R row (cellChar cd) (cellNewHl cur cd) (cellRepeat cd).toNat col g).1
        hshape1 (by omega) (by omega)
      rw [hw.1]
      constructor
      · intro r c hout
        have hout1 : ¬(r = row ∧ col + ((cellRepeat cd).toNat : Int) ≤ c ∧
            c < (col + ((cellRepeat cd).toNat : Int)) + (runsTotal rest : Int)) := by
          intro ⟨h1, h2, h3⟩
          exact hout ⟨h1, by omega, by omega⟩
        rw [hih.1 r c hout1, hw.2 r c, if_neg (by intro ⟨h1, h2, h3⟩; exact hout ⟨h1, h2, by omega⟩)]
      · intro c hcl hcu p hp
        by_cases hfirst : c < col + ((cellRepeat cd).toNat : Int)
        · have hoff : (c - col).toNat < (cellRepeat cd).toNat := by omega
          have hp' : specCellAt cur (cd :: rest) (c - col).toNat =
              some (cellChar cd, cellNewHl cur cd) := by
            rw [specCellAt_cons, if_pos hoff]
          rw [hp'] at hp
          have hpeq : p = (cellChar cd, cellNewHl cur cd) := (Option.some.inj hp).symm
          have hnotrest : ¬(row = row ∧ col + ((cellRepeat cd).toNat : Int) ≤ c ∧
              c < (col + ((cellRepeat cd).toNat : Int)) + (runsTotal rest : Int)) := by
            intro ⟨_, h2, _⟩
            omega
          rw [hih.1 row c hnotrest, hw.2 row c, if_pos ⟨rfl, hcl, hfirst⟩, hpeq]
        · have hoff : ¬((c - col).toNat < (cellRepeat cd).toNat) := by omega
          have hp' : specCellAt cur (cd :: rest) (c - col).toNat =
              specCellAt (cellNewHl cur cd) rest ((c - col).toNat - (cellRepeat cd).toNat) := by
            rw [specCellAt_cons, if_neg hoff]
          rw [hp'] at hp
          have hoffeq : (c - (col + ((cellRepeat cd).toNat : Int))).toNat =
              (c - col).toNat - (cellRepeat cd).toNat := by omega
          refine hih.2 c (by omega) (by omega) p ?_
          rw [hoffeq]
          exact hp

theorem runsTotal_append (a b : List CellData) :
    runsTotal (a ++ b) = runsTotal a + runsTotal b := by
  simp [runsTotal]

theorem specCellAt_append (cd : CellData) (suf : List CellData) :
    ∀ (pre : List CellData) (cur : Int) (k : Nat), k < (cellRepeat cd).toNat →
    specCellAt cur (pre ++ cd :: suf) (runsTotal pre + k) =
      some (cellChar cd, cellNewHl (carriedHl cur pre) cd) := by
  intro pre
  induction pre with
  | nil =>
    intro cur k hk
    simp only [List.nil_append]
    have h0 : runsTotal ([] : List CellData) = 0 := rfl
    rw [h0, Nat.zero_add, specCellAt_cons, if_pos hk]
    rfl
  | cons p pre ih =>
    intro cur k hk
    have ht := runsTotal_cons p pre
    rw [List.cons_append, specCellAt_cons, if_neg (by omega)]
    have hoff : runsTotal (p :: pre) + k - (cellRepeat p).toNat = runsTotal pre + k := by
      omega
    rw [hoff]
    exact ih (cellNewHl cur p) k hk

/-! ## Claim C3 -/

/-- C3: on the primary grid with an in-bounds row and runs that fit the
width, the run `cd` (at position `pre.length`, with repeat count
`(cellRepeat cd).toNat`) writes exactly that many consecutive cells, each
equal to `mkCell` of its glyph under the carry-forward highlight id —
which starts at 0 for the line, is updated only by runs carrying an
explicit id, and is reused by bare glyphs and id-less tuples (repeat 1 for
a bare glyph is `cellRepeat (.bare _) = 1`). -/
theorem c3_grid_line_run_decoding (R : Renderer) (ld : GridLineData)
    (pre : List CellData) (cd : CellData) (suf : List CellData)
    (hwf : R.WF) (hg : ld.grid = 1)
    (hrow0 : 0 ≤ ld.row) (hrown : ld.row < R.rows)
    (hcells : ld.cells = pre ++ cd :: suf)
    (hcol0 : 0 ≤ ld.colStart)
    (hfit : ld.colStart + (runsTotal ld.cells : Int) ≤ R.cols) :
    ∀ k : Nat, k < (cellRepeat cd).toNat →
      getCell (handleGridLine R [ld]).grid ld.row
          (ld.colStart + (runsTotal pre : Int) + (k : Int)) =
        some (mkCell R (cellChar cd) (cellNewHl (carriedHl 0 pre) cd)) := by
  intro k hk
  have hshape := gridShape_of_WF R hwf
  have happ : handleGridLine R [ld] =
      { R with grid := applyCells R ld.row ld.cells ld.colStart 0 R.grid } := by
    show applyGridLine R ld = _
    unfold applyGridLine
    rw [if_neg (by omega), if_neg (by omega)]
  rw [happ]
  have hspec := applyCells_spec R ld.row hrow0 hrown ld.cells ld.colStart 0 R.grid
    hshape hcol0 hfit
  have htot : runsTotal ld.cells = runsTotal pre + ((cellRepeat cd).toNat + runsTotal suf) := by
    rw [hcells, runsTotal_append, runsTotal_cons]
  have hoff : (ld.colStart + (runsTotal pre : Int) + (k : Int) - ld.colStart).toNat =
      runsTotal pre + k := by omega
  have hsp : specCellAt 0 ld.cells
      ((ld.colStart + (runsTotal pre : Int) + (k : Int) - ld.colStart).toNat) =
      some (cellChar cd, cellNewHl (carriedHl 0 pre) cd) := by
    rw [hoff, hcells]
    exact specCellAt_append cd suf pre 0 k hk
  exact hspec.2 (ld.colStart + (runsTotal pre : Int) + (k : Int))
    (by omega) (by omega) (cellChar cd, cellNewHl (carriedHl 0 pre) cd) hsp

/-- Witness for C3: a tuple run `["x", 5, 2]` at the start of a line on a
2×3 grid writes its second repetition at column 1 with highlight id 5. -/
theorem c3_grid_line_run_decoding_witness :
    getCell (handleGridLine
        ⟨2, 3, [[⟨" ", none, none, false⟩, ⟨" ", none, none, false⟩, ⟨" ", none, none, false⟩],
                [⟨" ", none, none, false⟩, ⟨" ", none, none, false⟩, ⟨" ", none, none, false⟩]],
         some "#ffffff", some "#000000", []⟩
        [⟨1, 0, 0, [.arr "x" (some 5) (some 2)]⟩]).grid 0 (0 + (0 : Int) + (1 : Int)) =
      some (mkCell
        ⟨2, 3, [[⟨" ", none, none, false⟩, ⟨" ", none, none, false⟩, ⟨" ", none, none, false⟩],
                [⟨" ", none, none, false⟩, ⟨" ", none, none, false⟩, ⟨" ", none, none, false⟩]],
         some "#ffffff", some "#000000", []⟩ "x" 5) := by
  have h := c3_grid_line_run_decoding
    ⟨2, 3, [[⟨" ", none, none, false⟩, ⟨" ", none, none, false⟩, ⟨" ", none, none, false⟩],
            [⟨" ", none, none, false⟩, ⟨" ", none, none, false⟩, ⟨" ", none, none, false⟩]],
     some "#ffffff", some "#000000", []⟩
    ⟨1, 0, 0, [.arr "x" (some 5) (some 2)]⟩
    [] (.arr "x" (some 5) (some 2)) []
    (by constructor
        · decide
        · refine ⟨by decide, by decide, ?_⟩
          decide)
    rfl (by decide) (by decide) rfl (by decide) (by decide)
    1 (by decide)
  exact h

/-! ## Claim C8 -/

/-- C8: the CJK codepoint U+4E2D is flagged double-width and ASCII 'A' is
not; and in `handleGridLine`, for two consecutive bare runs the second cell
is written at exactly `colStart + 1` — the column cursor advances by one
per repetition regardless of the width of the first glyph, so the cell
after a double-width cell is written like any other cell. -/
theorem c8_double_width_decoding :
    isDoubleWidth "中" = true ∧
    isDoubleWidth "A" = false ∧
    ∀ (R : Renderer) (ld : GridLineData) (s1 s2 : String),
      R.WF → ld.grid = 1 → 0 ≤ ld.row → ld.row < R.rows →
      ld.cells = [.bare s1, .bare s2] →
      0 ≤ ld.colStart → ld.colStart + 2 ≤ R.cols →
      getCell (handleGridLine R [ld]).grid ld.row ld.colStart =
          some (mkCell R (cellChar (.bare s1)) 0) ∧
      getCell (handleGridLine R [ld]).grid ld.row (ld.colStart + 1) =
          some (mkCell R (cellChar (.bare s2)) 0) := by
  refine ⟨by decide, by decide, ?_⟩
  intro R ld s1 s2 hwf hg hrow0 hrown hcells hcol0 hfit
  have htot : runsTotal ld.cells = 2 := by
    rw [hcells]
    rfl
  have hfit' : ld.colStart + (runsTotal ld.cells : Int) ≤ R.cols := by
    rw [htot]
    push_cast
    omega
  have hshape := gridShape_of_WF R hwf
  have happ : handleGridLine R [ld] =
      { R with grid := applyCells R ld.row ld.cells ld.colStart 0 R.grid } := by
    show applyGridLine R ld = _
    unfold applyGridLine
    rw [if_neg (by omega), if_neg (by omega)]
  have hspec := applyCells_spec R ld.row hrow0 hrown ld.cells ld.colStart 0 R.grid
    hshape hcol0 hfit'
  constructor
  · have hsp : specCellAt 0 ld.cells ((ld.colStart - ld.colStart).toNat) =
        some (cellChar (.bare s1), 0) := by
      have h0 : (ld.colStart - ld.colStart).toNat = 0 := by omega
      rw [h0, hcells, specCellAt_cons, if_pos (by simp [cellRepeat])]
      rfl
    rw [happ]
    exact hspec.2 ld.colStart (by omega) (by omega) (cellChar (.bare s1), 0) hsp
  · have hsp : specCellAt 0 ld.cells ((ld.colStart + 1 - ld.colStart).toNat) =
        some (cellChar (.bare s2), 0) := by
      have h1 : (ld.colStart + 1 - ld.colStart).toNat = 1 := by omega
      rw [h1, hcells, specCellAt_cons, if_neg (by simp [cellRepeat]),
        specCellAt_cons, if_pos (by simp [cellRepeat])]
      rfl
    rw [happ]
    exact hspec.2 (ld.colStart + 1) (by omega) (by omega) (cellChar (.bare s2), 0) hsp

/-- Witness for C8: `中` then `A` on a 2×3 grid, written at columns 0, 1. -/
theorem c8_double_width_decoding_witness :
    getCell (handleGridLine
        ⟨2, 3, [[⟨" ", none, none, false⟩, ⟨" ", none, none, false⟩, ⟨" ", none, none, false⟩],
                [⟨" ", none, none, false⟩, ⟨" ", none, none, false⟩, ⟨" ", none, none, false⟩]],
         some "#ffffff", some "#000000", []⟩
        [⟨1, 0, 0, [.bare "中", .bare "A"]⟩]).grid 0 0 =
      some (mkCell
        ⟨2, 3, [[⟨" ", none, none, false⟩, ⟨" ", none, none, false⟩, ⟨" ", none, none, false⟩],
                [⟨" ", none, none, false⟩, ⟨" ", none, none, false⟩, ⟨" ", none, none, false⟩]],
         some "#ffffff", some "#000000", []⟩ (cellChar (.bare "中")) 0) ∧
    getCell (handleGridLine
        ⟨2, 3, [[⟨" ", none, none, false⟩, ⟨" ", none, none, false⟩, ⟨" ", none, none, false⟩],
                [⟨" ", none, none, false⟩, ⟨" ", none, none, false⟩, ⟨" ", none, none, false⟩]],
         some "#ffffff", some "#000000", []⟩
        [⟨1, 0, 0, [.bare "中", .bare "A"]⟩]).grid 0 (0 + 1) =
      some (mkCell
        ⟨2, 3, [[⟨" ", none, none, false⟩, ⟨" ", none, none, false⟩, ⟨" ", none, none, false⟩],
                [⟨" ", none, none, false⟩, ⟨" ", none, none, false⟩, ⟨" ", none, none, false⟩]],
         some "#ffffff", some "#000000", []⟩ (cellChar (.bare "A")) 0) := by
  have h := c8_double_width_decoding.2.2
    ⟨2, 3, [[⟨" ", none, none, false⟩, ⟨" ", none, none, false⟩, ⟨" ", none, none, false⟩],
            [⟨" ", none, none, false⟩, ⟨" ", none, none, false⟩, ⟨" ", none, none, false⟩]],
     some "#ffffff", some "#000000", []⟩
    ⟨1, 0, 0, [.bare "中", .bare "A"]⟩ "中" "A"
    (by refine ⟨by decide, by decide, by decide, ?_⟩; decide)
    rfl (by decide) (by decide) rfl (by decide) (by decide)
  exact h

/-! ## Claim C10 -/

/-- C10: `handleGridLine` never writes outside the matrix: an event whose
row is out of `[0, rows)` leaves the renderer unchanged; every cell other
than row `row` at columns `[colStart, cols)` is untouched for arbitrary
`row`, `colStart` and repeat counts (writes stop at the column count, and
over-long runs are truncated there); and the grid silhouette and stored
dimensions are always preserved. -/
theorem c10_grid_line_bounds :
    (∀ (R : Renderer) (ld : GridLineData),
      ld.row < 0 ∨ R.rows ≤ ld.row → handleGridLine R [ld] = R) ∧
    (∀ (R : Renderer) (ld : GridLineData) (r c : Int),
      r ≠ ld.row ∨ c < ld.colStart ∨ R.cols ≤ c →
      getCell (handleGridLine R [ld]).grid r c = getCell R.grid r c) ∧
    (∀ (R : Renderer) (ld : GridLineData),
      (handleGridLine R [ld]).rows = R.rows ∧
      (handleGridLine R [ld]).cols = R.cols ∧
      shapeEq R.grid (handleGridLine R [ld]).grid) := by
  refine ⟨?_, ?_, ?_⟩
  · intro R ld h
    show applyGridLine R ld = R
    unfold applyGridLine
    split
    · rfl
    · rw [if_pos (by omega)]
  · intro R ld r c h
    show getCell (applyGridLine R ld).grid r c = getCell R.grid r c
    unfold applyGridLine
    split
    · rfl
    · split
      · rfl
      · exact applyCells_frame R ld.row ld.cells ld.colStart 0 R.grid r c h
  · intro R ld
    show (applyGridLine R ld).rows = R.rows ∧ (applyGridLine R ld).cols = R.cols ∧
      shapeEq R.grid (applyGridLine R ld).grid
    unfold applyGridLine
    split
    · exact ⟨rfl, rfl, shapeEq_refl R.grid⟩
    · split
      · exact ⟨rfl, rfl, shapeEq_refl R.grid⟩
      · exact ⟨rfl, rfl, applyCells_shape R ld.row ld.cells ld.colStart 0 R.grid⟩

/-- Witness for C10: an out-of-bounds row is skipped, and a run whose
repeat count overruns a 1×2 grid leaves column 0 of the other row and
everything past the right edge untouched. -/
theorem c10_grid_line_bounds_witness :
    handleGridLine
        ⟨1, 2, [[⟨" ", none, none, false⟩, ⟨" ", none, none, false⟩]], none, none, []⟩
        [⟨1, 5, 0, [.arr "x" (some 1) (some 99)]⟩] =
      ⟨1, 2, [[⟨" ", none, none, false⟩, ⟨" ", none, none, false⟩]], none, none, []⟩ ∧
    getCell (handleGridLine
        ⟨1, 2, [[⟨" ", none, none, false⟩, ⟨" ", none, none, false⟩]], none, none, []⟩
        [⟨1, 0, 1, [.arr "x" (some 1) (some 99)]⟩]).grid 0 0 =
      getCell [[⟨" ", none, none, false⟩, ⟨" ", none, none, false⟩]] 0 0 :=
  ⟨c10_grid_line_bounds.1
     ⟨1, 2, [[⟨" ", none, none, false⟩, ⟨" ", none, none, false⟩]], none, none, []⟩
     ⟨1, 5, 0, [.arr "x" (some 1) (some 99)]⟩ (by decide),
   c10_grid_line_bounds.2.1
     ⟨1, 2, [[⟨" ", none, none, false⟩, ⟨" ", none, none, false⟩]], none, none, []⟩
     ⟨1, 0, 1, [.arr "x" (some 1) (some 99)]⟩ 0 0 (by decide)⟩

/-! ## The scroll loops of `handleGridScroll` -/

theorem getCell_some_of_shape {g : List (List Cell)} {nr nc : Nat}
    (hs : gridShape g nr nc) (r c : Int)
    (hr0 : 0 ≤ r) (hrn : r.toNat < nr) (hc0 : 0 ≤ c) (hcn : c.toNat < nc) :
    ∃ v, getCell g r c = some v := by
  obtain ⟨rowL, hrow, hlen⟩ := hs.2 r.toNat hrn
  rw [getCell_of_rowL hrow hr0 c hc0]
  obtain ⟨hlt, -⟩ : c.toNat < rowL.length ∧ True := ⟨by omega, trivial⟩
  exact ⟨rowL[c.toNat], List.getElem?_eq_some.2 ⟨hlt, rfl⟩⟩

theorem scrollColsUp_shape (R : Renderer) (row d : Int) :
    ∀ (n : Nat) (col : Int) (g : List (List Cell)),
    shapeEq g (scrollColsUp R row d n col g) := by
  intro n
  induction n with
  | zero => intro col g; exact shapeEq_refl g
  | succ n ih =>
    intro col g
    unfold scrollColsUp
    refine shapeEq_trans ?_ (ih (col + 1) _)
    split
    · split
      · exact shapeEq_setCell ..
      · exact shapeEq_refl g
    · exact shapeEq_refl g

theorem scrollColsUp_spec (R : Renderer) (row d : Int)
    (hd : 0 < d) (hrow0 : 0 ≤ row) :
    ∀ (n : Nat) (col : Int) (g : List (List Cell)),
    gridShape g R.rows.toNat R.cols.toNat → 0 ≤ col →
    ∀ r c : Int, getCell (scrollColsUp R row d n col g) r c =
      if r = row ∧ col ≤ c ∧ c < col + (n : Int) ∧ row + d < R.rows ∧ c < R.cols
      then getCell g (row + d) c
      else getCell g r c := by
  intro n
  induction n with
  | zero =>
    intro col g hshape hc0 r c
    rw [if_neg (by omega)]
    rfl
  | succ n ih =>
    intro col g hshape hc0 r c
    unfold scrollColsUp
    by_cases hguard : row + d < R.rows ∧ col < R.cols
    · obtain ⟨v, hv⟩ := getCell_some_of_shape hshape (row + d) col
        (by omega) (by omega) (by omega) (by omega)
      rw [if_pos hguard, hv]
      have hshape' : gridShape (setCell g row col v) R.rows.toNat R.cols.toNat :=
        gridShape_of_shapeEq hshape (shapeEq_setCell ..)
      rw [ih (col + 1) (setCell g row col v) hshape' (by omega) r c]
      have hread : ∀ c' : Int, getCell (setCell g row col v) (row + d) c' =
          getCell g (row + d) c' := by
        intro c'
        exact getCell_setCell_ne g row col (row + d) c' v (by intro ⟨h1, _⟩; omega)
      by_cases hr1 : r = row ∧ col + 1 ≤ c ∧ c < col + 1 + (n : Int) ∧
          row + d < R.rows ∧ c < R.cols
      · rw [if_pos hr1, if_pos (by push_cast at hr1 ⊢; omega), hread]
      · rw [if_neg hr1]
        by_cases hr2 : r = row ∧ col ≤ c ∧ c < col + ((n + 1 : Nat) : Int) ∧
            row + d < R.rows ∧ c < R.cols
        · have hceq : c = col := by push_cast at hr1 hr2 ⊢; omega
          have hreq : r = row := hr2.1
          rw [if_pos hr2, hreq, hceq, hv]
          exact getCell_setCell_self hshape row col v hrow0 (by omega) hc0 (by omega)
        · rw [if_neg hr2]
          exact getCell_setCell_ne g row col r c v
            (by intro ⟨h1, h2⟩; push_cast at hr2; exact hr2 ⟨h1, by omega, by omega, hguard.1, by omega⟩)
    · rw [if_neg hguard]
      rw [ih (col + 1) g hshape (by omega) r c]
      by_cases hr1 : r = row ∧ col + 1 ≤ c ∧ c < col + 1 + (n : Int) ∧
          row + d < R.rows ∧ c < R.cols
      · rw [if_pos hr1, if_pos (by push_cast at hr1 ⊢; omega)]
      · rw [if_neg hr1, if_neg (by push_cast at hr1 ⊢; omega)]

theorem scrollRowsUp_shape (R : Renderer) (d left : Int) (ncols : Nat) :
    ∀ (n : Nat) (row : Int) (g : List (List Cell)),
    shapeEq g (scrollRowsUp R d left ncols n row g) := by
  intro n
  induction n with
  | zero => intro row g; exact shapeEq_refl g
  | succ n ih =>
    intro row g
    exact shapeEq_trans (scrollColsUp_shape R row d ncols left g) (ih (row + 1) _)

theorem scrollRowsUp_spec (R : Renderer) (d left : Int) (ncols : Nat)
    (g0 : List (List Cell)) (hd : 0 < d) (hl0 : 0 ≤ left) :
    ∀ (n : Nat) (row : Int) (g : List (List Cell)),
    gridShape g R.rows.toNat R.cols.toNat → 0 ≤ row →
    (∀ r c : Int, row ≤ r → getCell g r c = getCell g0 r c) →
    ∀ r c : Int, getCell (scrollRowsUp R d left ncols n row g) r c =
      if row ≤ r ∧ r < row + (n : Int) ∧ left ≤ c ∧ c < left + (ncols : Int) ∧
          r + d < R.rows ∧ c < R.cols
      then getCell g0 (r + d) c
      else getCell g r c := by
  intro n
  induction n with
  | zero =>
    intro row g hshape hrow0 hagree r c
    rw [if_neg (by omega)]
    rfl
  | succ n ih =>
    intro row g hshape hrow0 hagree r c
    unfold scrollRowsUp
    have hcols := scrollColsUp_spec R row d hd hrow0 ncols left g hshape hl0
    have hshape1 : gridShape (scrollColsUp R row d ncols left g)
        R.rows.toNat R.cols.toNat :=
      gridShape_of_shapeEq hshape (scrollColsUp_shape ..)
    have hagree1 : ∀ r' c' : Int, row + 1 ≤ r' →
        getCell (scrollColsUp R row d ncols left g) r' c' = getCell g0 r' c' := by
      intro r' c' hr'
      rw [hcols r' c', if_neg (by omega)]
      exact hagree r' c' (by omega)
    rw [ih (row + 1) _ hshape1 (by omega) hagree1 r c]
    by_cases hr1 : row + 1 ≤ r ∧ r < row + 1 + (n : Int) ∧ left ≤ c ∧
        c < left + (ncols : Int) ∧ r + d < R.rows ∧ c < R.cols
    · rw [if_pos hr1, if_pos (by push_cast at hr1 ⊢; omega)]
    · rw [if_neg hr1, hcols r c]
      by_cases hr2 : row ≤ r ∧ r < row + ((n + 1 : Nat) : Int) ∧ left ≤ c ∧
          c < left + (ncols : Int) ∧ r + d < R.rows ∧ c < R.cols
      · have hreq : r = row := by push_cast at hr1 hr2 ⊢; omega
        rw [if_pos hr2, if_pos (by subst hreq; exact ⟨rfl, hr2.2.2.1, hr2.2.2.2.1, hr2.2.2.2.2.1, hr2.2.2.2.2.2⟩)]
        rw [hreq]
        exact hagree (row + d) c (by omega)
      · rw [if_neg hr2, if_neg (by push_cast at hr2 ⊢; intro ⟨h1, h2⟩; exact hr2 (by subst h1; refine ⟨le_refl _, by omega, h2.1, h2.2.1, h2.2.2.1, h2.2.2.2⟩))]

theorem blankCols_shape (R : Renderer) (row : Int) :
    ∀ (n : Nat) (col : Int) (g : List (List Cell)),
    shapeEq g (blankCols R row n col g) := by
  intro n
  induction n with
  | zero => intro col g; exact shapeEq_refl g
  | succ n ih =>
    intro col g
    unfold blankCols
    refine shapeEq_trans ?_ (ih (col + 1) _)
    split
    · exact shapeEq_setCell ..
    · exact shapeEq_refl g

theorem blankCols_spec (R : Renderer) (row : Int) (hrow0 : 0 ≤ row) :
    ∀ (n : Nat) (col : Int) (g : List (List Cell)),
    gridShape g R.rows.toNat R.cols.toNat → 0 ≤ col →
    ∀ r c : Int, getCell (blankCols R row n col g) r c =
      if r = row ∧ col ≤ c ∧ c < col + (n : Int) ∧ row < R.rows ∧ c < R.cols
      then some (blankCell R)
      else getCell g r c := by
  intro n
  induction n with
  | zero =>
    intro col g hshape hc0 r c
    rw [if_neg (by omega)]
    rfl
  | succ n ih =>
    intro col g hshape hc0 r c
    unfold blankCols
    by_cases hguard : row < R.rows ∧ col < R.cols
    · rw [if_pos hguard]
      have hshape' : gridShape (setCell g row col (blankCell R)) R.rows.toNat R.cols.toNat :=
        gridShape_of_shapeEq hshape (shapeEq_setCell ..)
      rw [ih (col + 1) _ hshape' (by omega) r c]
      by_cases hr1 : r = row ∧ col + 1 ≤ c ∧ c < col + 1 + (n : Int) ∧
          row < R.rows ∧ c < R.cols
      · rw [if_pos hr1, if_pos (by push_cast at hr1 ⊢; omega)]
      · rw [if_neg hr1]
        by_cases hr2 : r = row ∧ col ≤ c ∧ c < col + ((n + 1 : Nat) : Int) ∧
            row < R.rows ∧ c < R.cols
        · have hceq : c = col := by push_cast at hr1 hr2 ⊢; omega
          rw [if_pos hr2, hr2.1, hceq]
          exact getCell_setCell_self hshape row col (blankCell R) hrow0 (by omega) hc0 (by omega)
        · rw [if_neg hr2]
          exact getCell_setCell_ne g row col r c (blankCell R)
            (by intro ⟨h1, h2⟩; push_cast at hr2; exact hr2 ⟨h1, by omega, by omega, hguard.1, by omega⟩)
    · rw [if_neg hguard]
      rw [ih (col + 1) g hshape (by omega) r c]
      by_cases hr1 : r = row ∧ col + 1 ≤ c ∧ c < col + 1 + (n : Int) ∧
          row < R.rows ∧ c < R.cols
      · rw [if_pos hr1, if_pos (by push_cast at hr1 ⊢; omega)]
      · rw [if_neg hr1, if_neg (by push_cast at hr1 ⊢; omega)]

theorem blankRows_shape (R : Renderer) (left : Int) (ncols : Nat) :
    ∀ (n : Nat) (row : Int) (g : List (List Cell)),
    shapeEq g (blankRows R left ncols n row g) := by
  intro n
  induction n with
  | zero => intro row g; exact shapeEq_refl g
  | succ n ih =>
    intro row g
    exact shapeEq_trans (blankCols_shape R row ncols left g) (ih (row + 1) _)

theorem blankRows_spec (R : Renderer) (left : Int) (ncols : Nat)
    (hl0 : 0 ≤ left) :
    ∀ (n : Nat) (row : Int) (g : List (List Cell)),
    gridShape g R.rows.toNat R.cols.toNat → 0 ≤ row →
    ∀ r c : Int, getCell (blankRows R left ncols n row g) r c =
      if row ≤ r ∧ r < row + (n : Int) ∧ left ≤ c ∧ c < left + (ncols : Int) ∧
          r < R.rows ∧ c < R.cols
      then some (blankCell R)
      else getCell g r c := by
  intro n
  induction n with
  | zero =>
    intro row g hshape hrow0 r c
    rw [if_neg (by omega)]
    rfl
  | succ n ih =>
    intro row g hshape hrow0 r c
    unfold blankRows
    have hcols := blankCols_spec R row hrow0 ncols left g hshape hl0
    have hshape1 : gridShape (blankCols R row ncols left g) R.rows.toNat R.cols.toNat :=
      gridShape_of_shapeEq hshape (blankCols_shape ..)
    rw [ih (row + 1) _ hshape1 (by omega) r c]
    by_cases hr1 : row + 1 ≤ r ∧ r < row + 1 + (n : Int) ∧ left ≤ c ∧
        c < left + (ncols : Int) ∧ r < R.rows ∧ c < R.cols
    · rw [if_pos hr1, if_pos (by push_cast at hr1 ⊢; omega)]
    · rw [if_neg hr1, hcols r c]
      by_cases hr2 : row ≤ r ∧ r < row + ((n + 1 : Nat) : Int) ∧ left ≤ c ∧
          c < left + (ncols : Int) ∧ r < R.rows ∧ c < R.cols
      · have hreq : r = row := by push_cast at hr1 hr2 ⊢; omega
        rw [if_pos hr2, if_pos (by subst hreq; exact ⟨rfl, hr2.2.2.1, hr2.2.2.2.1, hr2.2.2.2.2.1, hr2.2.2.2.2.2⟩)]
      · rw [if_neg hr2, if_neg (by push_cast at hr2 ⊢; intro ⟨h1, h2⟩; exact hr2 (by subst h1; exact ⟨le_refl _, by omega, h2.1, h2.2.1, h2.2.2.1, h2.2.2.2⟩))]

theorem scrollColsDown_shape (R : Renderer) (row absRows : Int) :
    ∀ (n : Nat) (col : Int) (g : List (List Cell)),
    shapeEq g (scrollColsDown R row absRows n col g) := by
  intro n
  induction n with
  | zero => intro col g; exact shapeEq_refl g
  | succ n ih =>
    intro col g
    unfold scrollColsDown
    refine shapeEq_trans ?_ (ih (col + 1) _)
    split
    · split
      · exact shapeEq_setCell ..
      · exact shapeEq_refl g
    · exact shapeEq_refl g

theorem scrollColsDown_spec (R : Renderer) (row absRows : Int)
    (he : 0 < absRows) (hrown : row < R.rows) :
    ∀ (n : Nat) (col : Int) (g : List (List Cell)),
    gridShape g R.rows.toNat R.cols.toNat → 0 ≤ col →
    ∀ r c : Int, getCell (scrollColsDown R row absRows n col g) r c =
      if r = row ∧ col ≤ c ∧ c < col + (n : Int) ∧ 0 ≤ row - absRows ∧ c < R.cols
      then getCell g (row - absRows) c
      else getCell g r c := by
  intro n
  induction n with
  | zero =>
    intro col g hshape hc0 r c
    rw [if_neg (by omega)]
    rfl
  | succ n ih =>
    intro col g hshape hc0 r c
    unfold scrollColsDown
    by_cases hguard : 0 ≤ row - absRows ∧ col < R.cols
    · obtain ⟨v, hv⟩ := getCell_some_of_shape hshape (row - absRows) col
        (by omega) (by omega) (by omega) (by omega)
      rw [if_pos hguard, hv]
      have hshape' : gridShape (setCell g row col v) R.rows.toNat R.cols.toNat :=
        gridShape_of_shapeEq hshape (shapeEq_setCell ..)
      rw [ih (col + 1) (setCell g row col v) hshape' (by omega) r c]
      have hread : ∀ c' : Int, getCell (setCell g row col v) (row - absRows) c' =
          getCell g (row - absRows) c' := by
        intro c'
        exact getCell_setCell_ne g row col (row - absRows) c' v (by intro ⟨h1, _⟩; omega)
      by_cases hr1 : r = row ∧ col + 1 ≤ c ∧ c < col + 1 + (n : Int) ∧
          0 ≤ row - absRows ∧ c < R.cols
      · rw [if_pos hr1, if_pos (by push_cast at hr1 ⊢; omega), hread]
      · rw [if_neg hr1]
        by_cases hr2 : r = row ∧ col ≤ c ∧ c < col + ((n + 1 : Nat) : Int) ∧
            0 ≤ row - absRows ∧ c < R.cols
        · have hceq : c = col := by push_cast at hr1 hr2 ⊢; omega
          rw [if_pos hr2, hr2.1, hceq, hv]
          exact getCell_setCell_self hshape row col v (by omega) (by omega) hc0 (by omega)
        · rw [if_neg hr2]
          exact getCell_setCell_ne g row col r c v
            (by intro ⟨h1, h2⟩; push_cast at hr2; exact hr2 ⟨h1, by omega, by omega, hguard.1, by omega⟩)
    · rw [if_neg hguard]
      rw [ih (col + 1) g hshape (by omega) r c]
      by_cases hr1 : r = row ∧ col + 1 ≤ c ∧ c < col + 1 + (n : Int) ∧
          0 ≤ row - absRows ∧ c < R.cols
      · rw [if_pos hr1, if_pos (by push_cast at hr1 ⊢; omega)]
      · rw [if_neg hr1, if_neg (by push_cast at hr1 ⊢; omega)]

theorem scrollRowsDown_shape (R : Renderer) (absRows left : Int) (ncols : Nat) :
    ∀ (n : Nat) (row : Int) (g : List (List Cell)),
    shapeEq g (scrollRowsDown R absRows left ncols n row g) := by
  intro n
  induction n with
  | zero => intro row g; exact shapeEq_refl g
  | succ n ih =>
    intro row g
    exact shapeEq_trans (scrollColsDown_shape R row absRows ncols left g) (ih (row - 1) _)

theorem scrollRowsDown_spec (R : Renderer) (absRows left : Int) (ncols : Nat)
    (g0 : List (List Cell)) (he : 0 < absRows) (hl0 : 0 ≤ left) :
    ∀ (n : Nat) (row : Int) (g : List (List Cell)),
    gridShape g R.rows.toNat R.cols.toNat → row < R.rows →
    (∀ r c : Int, r ≤ row → getCell g r c = getCell g0 r c) →
    ∀ r c : Int, getCell (scrollRowsDown R absRows left ncols n row g) r c =
      if row - (n : Int) < r ∧ r ≤ row ∧ left ≤ c ∧ c < left + (ncols : Int) ∧
          0 ≤ r - absRows ∧ c < R.cols
      then getCell g0 (r - absRows) c
      else getCell g r c := by
  intro n
  induction n with
  | zero =>
    intro row g hshape hrown hagree r c
    rw [if_neg (by omega)]
    rfl
  | succ n ih =>
    intro row g hshape hrown hagree r c
    unfold scrollRowsDown
    have hcols := scrollColsDown_spec R row absRows he hrown ncols left g hshape hl0
    have hshape1 : gridShape (scrollColsDown R row absRows ncols left g)
        R.rows.toNat R.cols.toNat :=
      gridShape_of_shapeEq hshape (scrollColsDown_shape ..)
    have hagree1 : ∀ r' c' : Int, r' ≤ row - 1 →
        getCell (scrollColsDown R row absRows ncols left g) r' c' = getCell g0 r' c' := by
      intro r' c' hr'
      rw [hcols r' c', if_neg (by omega)]
      exact hagree r' c' (by omega)
    rw [ih (row - 1) _ hshape1 (by omega) hagree1 r c]
    by_cases hr1 : row - 1 - (n : Int) < r ∧ r ≤ row - 1 ∧ left ≤ c ∧
        c < left + (ncols : Int) ∧ 0 ≤ r - absRows ∧ c < R.cols
    · rw [if_pos hr1, if_pos (by push_cast at hr1 ⊢; omega)]
    · rw [if_neg hr1, hcols r c]
      by_cases hr2 : row - ((n + 1 : Nat) : Int) < r ∧ r ≤ row ∧ left ≤ c ∧
          c < left + (ncols : Int) ∧ 0 ≤ r - absRows ∧ c < R.cols
      · have hreq : r = row := by push_cast at hr1 hr2 ⊢; omega
        rw [if_pos hr2, if_pos (by subst hreq; exact ⟨rfl, hr2.2.2.1, hr2.2.2.2.1, hr2.2.2.2.2.1, hr2.2.2.2.2.2⟩)]
        rw [hreq]
        exact hagree (row - absRows) c (by omega)
      · rw [if_neg hr2, if_neg (by push_cast at hr2 ⊢; intro ⟨h1, h2⟩; exact hr2 (by subst h1; exact ⟨by omega, le_refl _, h2.1, h2.2.1, h2.2.2.1, h2.2.2.2⟩))]

theorem WF_of_gridShape (R : Renderer) (h0r : 0 ≤ R.rows) (h0c : 0 ≤ R.cols)
    (hs : gridShape R.grid R.rows.toNat R.cols.toNat) : R.WF := by
  refine ⟨h0r, h0c, hs.1, fun rowL hmem => ?_⟩
  obtain ⟨i, hi, hget⟩ := List.getElem_of_mem hmem
  obtain ⟨rowL', hrow', hlen'⟩ := hs.2 i (by rw [← hs.1]; exact hi)
  have h3 : R.grid[i]? = some rowL := List.getElem?_eq_some.2 ⟨hi, hget⟩
  rw [hrow'] at h3
  rw [← Option.some.inj h3]
  exact hlen'

/-- Characterization of one upward `grid_scroll` (`deltaRows > 0`) on a
valid region: rows `[top, bot - d)` receive the content `d` rows below,
rows `[bot - d, bot)` are blanked, everything else is untouched. -/
theorem applyGridScroll_up_spec (R : Renderer) (sd : GridScrollData)
    (hwf : R.WF) (hg : sd.grid = 1)
    (ht0 : 0 ≤ sd.top) (hbr : sd.bot ≤ R.rows)
    (hl0 : 0 ≤ sd.left) (hlr : sd.left ≤ sd.right) (hrc : sd.right ≤ R.cols)
    (hd : 0 < sd.rows) (hdb : sd.rows ≤ sd.bot - sd.top) :
    ∀ r c : Int, getCell (applyGridScroll R sd).grid r c =
      if sd.top ≤ r ∧ r < sd.bot - sd.rows ∧ sd.left ≤ c ∧ c < sd.right
      then getCell R.grid (r + sd.rows) c
      else if sd.bot - sd.rows ≤ r ∧ r < sd.bot ∧ sd.left ≤ c ∧ c < sd.right
      then some (blankCell R)
      else getCell R.grid r c := by
  intro r c
  have hshape0 := gridShape_of_WF R hwf
  have happ : (applyGridScroll R sd).grid =
      blankRows R sd.left ((sd.right - sd.left).toNat) sd.rows.toNat (sd.bot - sd.rows)
        (scrollRowsUp R sd.rows sd.left ((sd.right - sd.left).toNat)
          ((sd.bot - sd.rows - sd.top).toNat) sd.top R.grid) := by
    simp only [applyGridScroll]
    rw [if_neg (by omega), if_pos hd]
  rw [happ]
  have h1 := scrollRowsUp_spec R sd.rows sd.left ((sd.right - sd.left).toNat) R.grid
    hd hl0 ((sd.bot - sd.rows - sd.top).toNat) sd.top R.grid hshape0 ht0
    (fun _ _ _ => rfl)
  have hshape1 : gridShape (scrollRowsUp R sd.rows sd.left ((sd.right - sd.left).toNat)
      ((sd.bot - sd.rows - sd.top).toNat) sd.top R.grid) R.rows.toNat R.cols.toNat :=
    gridShape_of_shapeEq hshape0 (scrollRowsUp_shape ..)
  have h2 := blankRows_spec R sd.left ((sd.right - sd.left).toNat) hl0
    sd.rows.toNat (sd.bot - sd.rows)
    (scrollRowsUp R sd.rows sd.left ((sd.right - sd.left).toNat)
      ((sd.bot - sd.rows - sd.top).toNat) sd.top R.grid)
    hshape1 (by omega)
  rw [h2 r c]
  have hncols : sd.left + (((sd.right - sd.left).toNat : Nat) : Int) = sd.right := by omega
  have hfuel : sd.top + (((sd.bot - sd.rows - sd.top).toNat : Nat) : Int) =
      sd.bot - sd.rows := by omega
  have hdnat : (sd.bot - sd.rows) + ((sd.rows.toNat : Nat) : Int) = sd.bot := by omega
  by_cases hcopy : sd.top ≤ r ∧ r < sd.bot - sd.rows ∧ sd.left ≤ c ∧ c < sd.right
  · rw [if_neg (by omega), h1 r c, if_pos (by refine ⟨hcopy.1, by omega, hcopy.2.2.1, by omega, by omega, by omega⟩)]
    rw [if_pos hcopy]
  · rw [if_neg hcopy]
    by_cases hblank : sd.bot - sd.rows ≤ r ∧ r < sd.bot ∧ sd.left ≤ c ∧ c < sd.right
    · rw [if_pos (by refine ⟨hblank.1, by omega, hblank.2.2.1, by omega, by omega, by omega⟩)]
      rw [if_pos hblank]
    · rw [if_neg (by intro h; exact hblank ⟨h.1, by omega, h.2.2.1, by omega⟩)]
      rw [if_neg hblank, h1 r c]
      rw [if_neg (by intro h; exact hcopy ⟨h.1, by omega, h.2.2.1, by omega⟩)]

/-- Characterization of one downward `grid_scroll` (`deltaRows < 0`) on a
valid region: rows `[top + |d|, bot)` receive the content `|d|` rows above,
rows `[top, top + |d|)` are blanked, everything else is untouched. -/
theorem applyGridScroll_down_spec (R : Renderer) (sd : GridScrollData)
    (hwf : R.WF) (hg : sd.grid = 1)
    (ht0 : 0 ≤ sd.top) (hbr : sd.bot ≤ R.rows)
    (hl0 : 0 ≤ sd.left) (hlr : sd.left ≤ sd.right) (hrc : sd.right ≤ R.cols)
    (hd : sd.rows < 0) (hdb : -sd.rows ≤ sd.bot - sd.top) :
    ∀ r c : Int, getCell (applyGridScroll R sd).grid r c =
      if sd.top + (-sd.rows) ≤ r ∧ r < sd.bot ∧ sd.left ≤ c ∧ c < sd.right
      then getCell R.grid (r - (-sd.rows)) c
      else if sd.top ≤ r ∧ r < sd.top + (-sd.rows) ∧ sd.left ≤ c ∧ c < sd.right
      then some (blankCell R)
      else getCell R.grid r c := by
  intro r c
  have hshape0 := gridShape_of_WF R hwf
  have habs : |sd.rows| = -sd.rows := abs_of_neg hd
  have happ : (applyGridScroll R sd).grid =
      blankRows R sd.left ((sd.right - sd.left).toNat) (|sd.rows|).toNat sd.top
        (scrollRowsDown R (|sd.rows|) sd.left ((sd.right - sd.left).toNat)
          ((sd.bot - (sd.top + |sd.rows|)).toNat) (sd.bot - 1) R.grid) := by
    simp only [applyGridScroll]
    rw [if_neg (by omega), if_neg (by omega), if_pos hd]
  rw [happ]
  have h1 := scrollRowsDown_spec R (|sd.rows|) sd.left ((sd.right - sd.left).toNat) R.grid
    (by omega) hl0 ((sd.bot - (sd.top + |sd.rows|)).toNat) (sd.bot - 1) R.grid hshape0
    (by omega) (fun _ _ _ => rfl)
  have hshape1 : gridShape (scrollRowsDown R (|sd.rows|) sd.left
      ((sd.right - sd.left).toNat) ((sd.bot - (sd.top + |sd.rows|)).toNat) (sd.bot - 1)
      R.grid) R.rows.toNat R.cols.toNat :=
    gridShape_of_shapeEq hshape0 (scrollRowsDown_shape ..)
  have h2 := blankRows_spec R sd.left ((sd.right - sd.left).toNat) hl0
    (|sd.rows|).toNat sd.top
    (scrollRowsDown R (|sd.rows|) sd.left ((sd.right - sd.left).toNat)
      ((sd.bot - (sd.top + |sd.rows|)).toNat) (sd.bot - 1) R.grid)
    hshape1 ht0
  rw [h2 r c]
  have hncols : sd.left + (((sd.right - sd.left).toNat : Nat) : Int) = sd.right := by omega
  have hfuel : (sd.bot - 1) - (((sd.bot - (sd.top + |sd.rows|)).toNat : Nat) : Int) =
      sd.top + (-sd.rows) - 1 := by omega
  have henat : sd.top + (((|sd.rows|).toNat : Nat) : Int) = sd.top + (-sd.rows) := by omega
  by_cases hcopy : sd.top + (-sd.rows) ≤ r ∧ r < sd.bot ∧ sd.left ≤ c ∧ c < sd.right
  · rw [if_neg (by omega), h1 r c, if_pos (by refine ⟨by omega, by omega, hcopy.2.2.1, by omega, by omega, by omega⟩)]
    rw [if_pos hcopy, habs]
  · rw [if_neg hcopy]
    by_cases hblank : sd.top ≤ r ∧ r < sd.top + (-sd.rows) ∧ sd.left ≤ c ∧ c < sd.right
    · rw [if_pos (by refine ⟨hblank.1, by omega, hblank.2.2.1, by omega, by omega, by omega⟩)]
      rw [if_pos hblank]
    · rw [if_neg (by intro h; exact hblank ⟨h.1, by omega, h.2.2.1, by omega⟩)]
      rw [if_neg hblank, h1 r c]
      rw [if_neg (by intro h; exact hcopy ⟨by omega, by omega, h.2.2.1, by omega⟩)]

theorem applyGridScroll_fields (R : Renderer) (sd : GridScrollData) :
    (applyGridScroll R sd).rows = R.rows ∧ (applyGridScroll R sd).cols = R.cols ∧
    (applyGridScroll R sd).colorsFg = R.colorsFg ∧
    (applyGridScroll R sd).colorsBg = R.colorsBg ∧
    shapeEq R.grid (applyGridScroll R sd).grid := by
  unfold applyGridScroll
  split
  · exact ⟨rfl, rfl, rfl, rfl, shapeEq_refl _⟩
  · split
    · exact ⟨rfl, rfl, rfl, rfl,
        shapeEq_trans (scrollRowsUp_shape ..) (blankRows_shape ..)⟩
    · split
      · exact ⟨rfl, rfl, rfl, rfl,
          shapeEq_trans (scrollRowsDown_shape ..) (blankRows_shape ..)⟩
      · exact ⟨rfl, rfl, rfl, rfl, shapeEq_refl _⟩

theorem applyGridScroll_WF (R : Renderer) (sd : GridScrollData) (hwf : R.WF) :
    (applyGridScroll R sd).WF := by
  obtain ⟨h1, h2, _, _, h5⟩ := applyGridScroll_fields R sd
  refine WF_of_gridShape _ (by rw [h1]; exact hwf.1) (by rw [h2]; exact hwf.2.1) ?_
  rw [h1, h2]
  exact gridShape_of_shapeEq (gridShape_of_WF R hwf) h5

theorem blankCell_applyGridScroll (R : Renderer) (sd : GridScrollData) :
    blankCell (applyGridScroll R sd) = blankCell R := by
  obtain ⟨-, -, h3, h4, -⟩ := applyGridScroll_fields R sd
  unfold blankCell
  rw [h3, h4]

/-! ## Claim C5 -/

/-- C5 is refuted on the code as stated: on a 2×1 region scrolled by
`deltaRows = 1` and then `-1`, the cell `(0,0)` — which is NOT in the rows
blanked at the vacated edge by the first scroll (row 1, the bottom) — is
not restored but left blank, while row 1, which the first scroll did
blank, IS restored. -/
theorem c5_roundtrip_counterexample :
    getCell (handleGridScroll (handleGridScroll
        ⟨2, 1, [[⟨"a", none, none, false⟩], [⟨"b", none, none, false⟩]],
         some "#ffffff", some "#000000", []⟩
        [⟨1, 0, 2, 0, 1, 1, 0⟩]) [⟨1, 0, 2, 0, 1, -1, 0⟩]).grid 0 0 ≠
      getCell [[⟨"a", none, none, false⟩], [⟨"b", none, none, false⟩]] 0 0 ∧
    getCell (handleGridScroll (handleGridScroll
        ⟨2, 1, [[⟨"a", none, none, false⟩], [⟨"b", none, none, false⟩]],
         some "#ffffff", some "#000000", []⟩
        [⟨1, 0, 2, 0, 1, 1, 0⟩]) [⟨1, 0, 2, 0, 1, -1, 0⟩]).grid 1 0 =
      getCell [[⟨"a", none, none, false⟩], [⟨"b", none, none, false⟩]] 1 0 := by
  constructor
  · decide
  · decide

/-- C5 (amended): `grid_scroll` with `deltaRows = 0` is a complete no-op;
and on a valid region, scrolling by `d` and then `-d` restores every cell
of the region and leaves everything outside untouched, except the `|d|`
rows at the edge vacated by the SECOND scroll (the top of the region for
`d > 0`, the bottom for `d < 0`), which end up blank. -/
theorem c5_scroll_zero_and_roundtrip :
    (∀ (R : Renderer) (sd : GridScrollData), sd.rows = 0 →
      handleGridScroll R [sd] = R) ∧
    (∀ (R : Renderer) (sd : GridScrollData),
      R.WF → sd.grid = 1 → 0 ≤ sd.top → sd.bot ≤ R.rows →
      0 ≤ sd.left → sd.left ≤ sd.right → sd.right ≤ R.cols →
      sd.rows ≠ 0 → |sd.rows| ≤ sd.bot - sd.top →
      ∀ r c : Int,
        getCell (handleGridScroll (handleGridScroll R [sd])
            [{ sd with rows := -sd.rows }]).grid r c =
          if sd.left ≤ c ∧ c < sd.right ∧
              ((0 < sd.rows ∧ sd.top ≤ r ∧ r < sd.top + sd.rows) ∨
               (sd.rows < 0 ∧ sd.bot + sd.rows ≤ r ∧ r < sd.bot))
          then some (blankCell R)
          else getCell R.grid r c) := by
  constructor
  · intro R sd h0
    show applyGridScroll R sd = R
    unfold applyGridScroll
    split
    · rfl
    · rw [if_neg (by omega), if_neg (by omega)]
  · intro R sd hwf hg ht0 hbr hl0 hlr hrc hdne hdb
    have hmag1 : sd.rows ≤ sd.bot - sd.top := by
      rcases abs_cases sd.rows with ⟨he, h0⟩ | ⟨he, h0⟩ <;> omega
    have hmag2 : -sd.rows ≤ sd.bot - sd.top := by
      rcases abs_cases sd.rows with ⟨he, h0⟩ | ⟨he, h0⟩ <;> omega
    have hwf1 := applyGridScroll_WF R sd hwf
    have hflds := applyGridScroll_fields R sd
    have hblank1 := blankCell_applyGridScroll R sd
    intro r c
    rw [show handleGridScroll (handleGridScroll R [sd]) [{ sd with rows := -sd.rows }] =
        applyGridScroll (applyGridScroll R sd) { sd with rows := -sd.rows } from rfl]
    rcases lt_or_gt_of_ne hdne with hd | hd
    · -- first scroll down (rows < 0), second up
      have h1 := applyGridScroll_down_spec R sd hwf hg ht0 hbr hl0 hlr hrc hd hmag2
      have h2 := applyGridScroll_up_spec (applyGridScroll R sd)
        { sd with rows := -sd.rows } hwf1 hg ht0 (by rw [hflds.1]; exact hbr)
        hl0 hlr (by rw [hflds.2.1]; exact hrc)
        (by simp only []; omega) (by simp only []; omega)
      rw [h2 r c]
      simp only [neg_neg] at *
      by_cases hA : sd.top ≤ r ∧ r < sd.bot - -sd.rows ∧ sd.left ≤ c ∧ c < sd.right
      · rw [if_pos hA, h1 (r + -sd.rows) c,
          if_pos ⟨by omega, by omega, hA.2.2.1, hA.2.2.2⟩,
          show r + -sd.rows - -sd.rows = r from by omega,
          if_neg (by intro h; rcases h.2.2 with ⟨hp, -⟩ | ⟨-, hb, -⟩ <;> omega)]
      · rw [if_neg hA]
        by_cases hB : sd.bot - -sd.rows ≤ r ∧ r < sd.bot ∧ sd.left ≤ c ∧ c < sd.right
        · rw [if_pos hB, hblank1,
            if_pos ⟨hB.2.2.1, hB.2.2.2, Or.inr ⟨hd, by omega, hB.2.1⟩⟩]
        · rw [if_neg hB, h1 r c]
          have hout : ¬(sd.left ≤ c ∧ c < sd.right ∧ sd.top ≤ r ∧ r < sd.bot) := by
            intro ⟨hc1, hc2, hr1, hr2⟩
            by_cases hsplit : sd.bot - -sd.rows ≤ r
            · exact hB ⟨hsplit, hr2, hc1, hc2⟩
            · exact hA ⟨hr1, by omega, hc1, hc2⟩
          have hn1 : ¬(sd.top + -sd.rows ≤ r ∧ r < sd.bot ∧ sd.left ≤ c ∧ c < sd.right) := by
            intro h
            exact hout ⟨h.2.2.1, h.2.2.2, by omega, h.2.1⟩
          have hn2 : ¬(sd.top ≤ r ∧ r < sd.top + -sd.rows ∧ sd.left ≤ c ∧ c < sd.right) := by
            intro h
            exact hout ⟨h.2.2.1, h.2.2.2, h.1, by omega⟩
          have hn3 : ¬(sd.left ≤ c ∧ c < sd.right ∧
              ((0 < sd.rows ∧ sd.top ≤ r ∧ r < sd.top + sd.rows) ∨
               (sd.rows < 0 ∧ sd.bot + sd.rows ≤ r ∧ r < sd.bot))) := by
            intro h
            rcases h.2.2 with ⟨hp, -⟩ | ⟨-, hb1, hb2⟩
            · omega
            · exact hout ⟨h.1, h.2.1, by omega, hb2⟩
          rw [if_neg hn1, if_neg hn2, if_neg hn3]
    · -- first scroll up (rows > 0), second down
      have h1 := applyGridScroll_up_spec R sd hwf hg ht0 hbr hl0 hlr hrc hd hmag1
      have h2 := applyGridScroll_down_spec (applyGridScroll R sd)
        { sd with rows := -sd.rows } hwf1 hg ht0 (by rw [hflds.1]; exact hbr)
        hl0 hlr (by rw [hflds.2.1]; exact hrc)
        (by simp only []; omega) (by simp only []; omega)
      rw [h2 r c]
      simp only [neg_neg] at *
      by_cases hA : sd.top + sd.rows ≤ r ∧ r < sd.bot ∧ sd.left ≤ c ∧ c < sd.right
      · rw [if_pos hA, h1 (r - sd.rows) c,
          if_pos ⟨by omega, by omega, hA.2.2.1, hA.2.2.2⟩,
          show r - sd.rows + sd.rows = r from by omega,
          if_neg (by intro h; rcases h.2.2 with ⟨-, -, hp⟩ | ⟨hn, -⟩ <;> omega)]
      · rw [if_neg hA]
        by_cases hB : sd.top ≤ r ∧ r < sd.top + sd.rows ∧ sd.left ≤ c ∧ c < sd.right
        · rw [if_pos hB, hblank1,
            if_pos ⟨hB.2.2.1, hB.2.2.2, Or.inl ⟨hd, hB.1, hB.2.1⟩⟩]
        · rw [if_neg hB, h1 r c]
          have hout : ¬(sd.left ≤ c ∧ c < sd.right ∧ sd.top ≤ r ∧ r < sd.bot) := by
            intro ⟨hc1, hc2, hr1, hr2⟩
            by_cases hsplit : sd.top + sd.rows ≤ r
            · exact hA ⟨hsplit, hr2, hc1, hc2⟩
            · exact hB ⟨hr1, by omega, hc1, hc2⟩
          have hn1 : ¬(sd.top ≤ r ∧ r < sd.bot - sd.rows ∧ sd.left ≤ c ∧ c < sd.right) := by
            intro h
            exact hout ⟨h.2.2.1, h.2.2.2, h.1, by omega⟩
          have hn2 : ¬(sd.bot - sd.rows ≤ r ∧ r < sd.bot ∧ sd.left ≤ c ∧ c < sd.right) := by
            intro h
            exact hout ⟨h.2.2.1, h.2.2.2, by omega, h.2.1⟩
          have hn3 : ¬(sd.left ≤ c ∧ c < sd.right ∧
              ((0 < sd.rows ∧ sd.top ≤ r ∧ r < sd.top + sd.rows) ∨
               (sd.rows < 0 ∧ sd.bot + sd.rows ≤ r ∧ r < sd.bot))) := by
            intro h
            rcases h.2.2 with ⟨-, hb1, hb2⟩ | ⟨hn, -⟩
            · exact hout ⟨h.1, h.2.1, hb1, by omega⟩
            · omega
          rw [if_neg hn1, if_neg hn2, if_neg hn3]

/-- Witness for the amended C5: a 2×1 region scrolled by `1` then `-1`
leaves row 0 blank and restores row 1; `deltaRows = 0` is the identity. -/
theorem c5_scroll_zero_and_roundtrip_witness :
    handleGridScroll
        ⟨2, 1, [[⟨"a", none, none, false⟩], [⟨"b", none, none, false⟩]],
         some "#ffffff", some "#000000", []⟩ [⟨1, 0, 2, 0, 1, 0, 0⟩] =
      ⟨2, 1, [[⟨"a", none, none, false⟩], [⟨"b", none, none, false⟩]],
       some "#ffffff", some "#000000", []⟩ ∧
    getCell (handleGridScroll (handleGridScroll
        ⟨2, 1, [[⟨"a", none, none, false⟩], [⟨"b", none, none, false⟩]],
         some "#ffffff", some "#000000", []⟩
        [⟨1, 0, 2, 0, 1, 1, 0⟩])
        [{ (⟨1, 0, 2, 0, 1, 1, 0⟩ : GridScrollData) with rows := -(1 : Int) }]).grid 0 0 =
      some (blankCell
        ⟨2, 1, [[⟨"a", none, none, false⟩], [⟨"b", none, none, false⟩]],
         some "#ffffff", some "#000000", []⟩) := by
  constructor
  · exact c5_scroll_zero_and_roundtrip.1
      ⟨2, 1, [[⟨"a", none, none, false⟩], [⟨"b", none, none, false⟩]],
       some "#ffffff", some "#000000", []⟩ ⟨1, 0, 2, 0, 1, 0, 0⟩ rfl
  · have h := c5_scroll_zero_and_roundtrip.2
      ⟨2, 1, [[⟨"a", none, none, false⟩], [⟨"b", none, none, false⟩]],
       some "#ffffff", some "#000000", []⟩ ⟨1, 0, 2, 0, 1, 1, 0⟩
      (by refine ⟨by decide, by decide, by decide, ?_⟩; decide)
      rfl (by decide) (by decide) (by decide) (by decide) (by decide)
      (by decide) (by decide) 0 0
    rw [h]
    decide
